import Mathlib

/-!
# Aquatone: takeover detection, technology fingerprinting and the record store

A shallow embedding of `agents/url_takeover_detector.go`,
`agents/url_technology_fingerprinter.go` and `core/session.go`.

Go strings are embedded as Lean strings and compared character by character (on valid
UTF-8 text this is the byte-wise comparison of Go), Go slices as lists, Go maps as
association lists, record pointers as record values that are passed through the functions
mutating them.  A function that talks to the outside (resolver, output directory, HTML
parser) takes the answers of the outside as a `World`.  Calls of the leveled logger
(`session.Out`) write to the console only and are left out.
-/

namespace Aquatone

/-! ## Strings -/

/-- Go `strings.HasSuffix(s, suffix)`. -/
def hasSuffix (s suffix : String) : Bool :=
  suffix.data.isSuffixOf s.data

/-- Substring test on character lists: `sub` occurs in the list at some offset. -/
def listContains (sub : List Char) : List Char → Bool
  | [] => sub.isPrefixOf []
  | c :: cs => sub.isPrefixOf (c :: cs) || listContains sub cs

/-- Go `strings.Contains(s, substr)`. -/
def contains (s substr : String) : Bool :=
  listContains substr.data s.data

/-! ## Data model -/

/-- A response header of a page (`core.Header`). -/
structure Header where
  Name : String
  Value : String
deriving DecidableEq, Repr

/-- Modelled from the spec: `core.Tag` is declared in `core/page.go`, which is not part of
the sources; the spec gives a tag a name, a severity class and a reference link, and the
calls of `AddTag` pass them in this order.  The severity class is called `TagType` here. -/
structure Tag where
  Text : String
  TagType : String
  Link : String
deriving DecidableEq, Repr

/-- Modelled from the spec: `core.Page` is declared in `core/page.go`, which is not part of
the sources; the fields are the attributes the spec lists for a target record and that the
agents read or write. -/
structure Page where
  UUID : String
  URL : String
  Hostname : String
  Addrs : List String
  Status : String
  Headers : List Header
  HeadersPath : String
  BodyPath : String
  ScreenshotPath : String
  HasScreenshot : Bool
  PageTitle : String
  Tags : List Tag
deriving DecidableEq, Repr

/-- Modelled from the spec: `Page.AddTag` is defined in `core/page.go`, which is not part of
the sources; the spec keeps several tags per record in insertion order, so a tag is appended
to the record's tag list. -/
def Page.AddTag (p : Page) (text tagType link : String) : Page :=
  { p with Tags := p.Tags ++ [{ Text := text, TagType := tagType, Link := link }] }

/-! ## Takeover detector: the provider functions -/

/-- The list `githubAddrs` of `detectGithubPages`. -/
def githubAddrs : List String :=
  ["185.199.108.153", "185.199.109.153", "185.199.110.153", "185.199.111.153"]

/-- The list `fingerprints` of `detectGithubPages`. -/
def githubFingerprints : List String :=
  ["There isn't a GitHub Pages site here.",
   "For root URLs (like http://example.com/) you must provide an index.html file"]

/-- The innermost loop of `detectGithubPages` and of `detectAmazonS3`: the first fingerprint
found in the body adds the takeover tag and returns `true`; when the loop runs out the
function returns `true` as well. -/
def fingerprintLoop (link : String) (p : Page) (body : String) : List String → Bool × Page
  | [] => (true, p)
  | fingerprint :: rest =>
    if contains body fingerprint then (true, p.AddTag "Domain Takeover" "danger" link)
    else fingerprintLoop link p body rest

/-- The loop over `addrs` of `detectGithubPages` for one `githubAddr`; `none` when the loop
runs out without a return. -/
def githubAddrLoop (p : Page) (body githubAddr : String) : List String → Option (Bool × Page)
  | [] => none
  | addr :: rest =>
    if addr = githubAddr then
      some (fingerprintLoop
        "https://help.github.com/articles/using-a-custom-domain-with-github-pages/"
        p body githubFingerprints)
    else githubAddrLoop p body githubAddr rest

/-- The outer loop of `detectGithubPages` over `githubAddrs`. -/
def githubLoop (p : Page) (addrs : List String) (body : String) : List String → Bool × Page
  | [] => (false, p)
  | githubAddr :: rest =>
    match githubAddrLoop p body githubAddr addrs with
    | some r => r
    | none => githubLoop p addrs body rest

def detectGithubPages (p : Page) (addrs : List String) (body : String) : Bool × Page :=
  githubLoop p addrs body githubAddrs

def detectAmazonS3 (p : Page) (cname body : String) : Bool × Page :=
  if !hasSuffix cname ".amazonaws.com." then (false, p)
  else fingerprintLoop
    "https://docs.aws.amazon.com/AmazonS3/latest/dev/website-hosting-custom-domain-walkthrough.html"
    p body ["NoSuchBucket", "The specified bucket does not exist"]

def detectCampaignMonitor (p : Page) (cname body : String) : Bool × Page :=
  if cname ≠ "cname.createsend.com." then (false, p)
  else
    let p := p.AddTag "Campaign Monitor" "info" "https://www.campaignmonitor.com/"
    if contains body "Double check the URL or " then
      (true, p.AddTag "Domain Takeover" "danger"
        "https://help.campaignmonitor.com/custom-domain-names")
    else (true, p)

def detectCargoCollective (p : Page) (cname body : String) : Bool × Page :=
  if cname ≠ "subdomain.cargocollective.com." then (false, p)
  else
    let p := p.AddTag "Cargo Collective" "info" "https://cargocollective.com/"
    if contains body "404 Not Found" then
      (true, p.AddTag "Domain Takeover" "danger"
        "https://support.2.cargocollective.com/Using-a-Third-Party-Domain")
    else (true, p)

def detectFeedPress (p : Page) (cname body : String) : Bool × Page :=
  if cname ≠ "redirect.feedpress.me." then (false, p)
  else
    let p := p.AddTag "FeedPress" "info" "https://feed.press/"
    if contains body "The feed has not been found." then
      (true, p.AddTag "Domain Takeover" "danger"
        "https://support.feed.press/article/61-how-to-create-a-custom-hostname")
    else (true, p)

def detectGhost (p : Page) (cname body : String) : Bool × Page :=
  if !hasSuffix cname ".ghost.io." then (false, p)
  else if contains body "The thing you were looking for is no longer here, or never was" then
    (true, p.AddTag "Domain Takeover" "danger" "https://docs.ghost.org/faq/using-custom-domains/")
  else (true, p)

def detectHelpjuice (p : Page) (cname body : String) : Bool × Page :=
  if !hasSuffix cname ".helpjuice.com." then (false, p)
  else
    let p := p.AddTag "Helpjuice" "info" "https://helpjuice.com/"
    if contains body "We could not find what you're looking for." then
      (true, p.AddTag "Domain Takeover" "danger"
        "https://help.helpjuice.com/34339-getting-started/custom-domain")
    else (false, p)

def detectHelpScout (p : Page) (cname body : String) : Bool × Page :=
  if !hasSuffix cname ".helpscoutdocs.com." then (false, p)
  else
    let p := p.AddTag "HelpScout" "info" "https://www.helpscout.net/"
    if contains body "No settings were found for this company:" then
      (true, p.AddTag "Domain Takeover" "danger"
        "https://docs.helpscout.net/article/42-setup-custom-domain")
    else (true, p)

/-- The loop of `detectHeroku` over `herokuCnames`. -/
def herokuLoop (p : Page) (cname body : String) : List String → Bool × Page
  | [] => (false, p)
  | herokuCname :: rest =>
    if hasSuffix cname herokuCname then
      let p := p.AddTag "Heroku" "info" "https://www.heroku.com/"
      if contains body "No such app" then
        (true, p.AddTag "Domain Takeover" "danger"
          "https://devcenter.heroku.com/articles/custom-domains")
      else (true, p)
    else herokuLoop p cname body rest

def detectHeroku (p : Page) (cname body : String) : Bool × Page :=
  herokuLoop p cname body [".herokudns.com.", ".herokuapp.com.", ".herokussl.com."]

def detectJetBrains (p : Page) (cname body : String) : Bool × Page :=
  if !hasSuffix cname ".myjetbrains.com." then (false, p)
  else
    let p := p.AddTag "JetBrains" "info" "https://www.jetbrains.com/"
    if contains body "is not a registered InCloud YouTrack" then
      (true, p.AddTag "Domain Takeover" "danger"
        "https://www.jetbrains.com/help/youtrack/incloud/Domain-Settings.html#use-custom-domain-name")
    else (true, p)

def detectMicrosoftAzure (p : Page) (cname body : String) : Bool × Page :=
  if !hasSuffix cname ".azurewebsites.net." then (false, p)
  else
    let p := p.AddTag "Microsoft Azure" "info" "https://azure.microsoft.com/"
    if contains body "404 Web Site not found" then
      (true, p.AddTag "Domain Takeover" "danger"
        "https://docs.microsoft.com/en-us/azure/app-service/app-service-web-tutorial-custom-domain")
    else (true, p)

/-- The loop of `detectReadme` over `readmeCnames`. -/
def readmeLoop (p : Page) (cname body : String) : List String → Bool × Page
  | [] => (false, p)
  | readmeCname :: rest =>
    if hasSuffix cname readmeCname then
      let p := p.AddTag "Readme" "info" "https://readme.io/"
      if contains body "Project doesnt exist... yet!" then
        (true, p.AddTag "Domain Takeover" "danger"
          "https://readme.readme.io/docs/setting-up-custom-domain")
      else (true, p)
    else readmeLoop p cname body rest

def detectReadme (p : Page) (cname body : String) : Bool × Page :=
  readmeLoop p cname body [".readme.io.", ".readmessl.com."]

/-- The `detected` flag after the loop `for _, addr := range addrs` that several detectors
start with: some resolved address equals the given literal. -/
def addrDetected (addrs : List String) (literal : String) : Bool :=
  addrs.any (fun addr => decide (addr = literal))

def detectSurge (p : Page) (addrs : List String) (cname body : String) : Bool × Page :=
  let detected := addrDetected addrs "45.55.110.124"
  let detected := if cname = "na-west1.surge.sh." then true else detected
  if detected then
    let p := p.AddTag "Surge" "info" "https://surge.sh/"
    let p := if contains body "project not found" then
        p.AddTag "Domain Takeover" "danger" "https://surge.sh/help/adding-a-custom-domain"
      else p
    (true, p)
  else (false, p)

def detectTumblr (p : Page) (addrs : List String) (cname body : String) : Bool × Page :=
  let detected := addrDetected addrs "66.6.44.4"
  let detected := if cname = "domains.tumblr.com." then true else detected
  if detected then
    let p :=
      if contains body "Whatever you were looking for doesn't currently exist at this address"
      then p.AddTag "Domain Takeover" "danger"
        "https://tumblr.zendesk.com/hc/en-us/articles/231256548-Custom-domains"
      else p
    (true, p)
  else (false, p)

def detectUserVoice (p : Page) (cname body : String) : Bool × Page :=
  if !hasSuffix cname ".uservoice.com." then (false, p)
  else
    let p := p.AddTag "UserVoice" "info" "https://www.uservoice.com/"
    let p := if contains body "This UserVoice subdomain is currently available!" then
        p.AddTag "Domain Takeover" "danger"
          "https://developer.uservoice.com/docs/site/domain-aliasing/"
      else p
    (true, p)

def detectWordpress (p : Page) (cname body : String) : Bool × Page :=
  if !hasSuffix cname ".wordpress.com." then (false, p)
  else
    let p := if contains body "Do you want to register" then
        p.AddTag "Domain Takeover" "danger"
          "https://en.support.wordpress.com/domains/map-subdomain/"
      else p
    (true, p)

def detectSmugMug (p : Page) (cname body : String) : Bool × Page :=
  if cname ≠ "domains.smugmug.com." then (false, p)
  else
    let p := p.AddTag "SmugMug" "info" "https://www.smugmug.com/"
    let p := if body = "" then
        p.AddTag "Domain Takeover" "danger"
          "https://help.smugmug.com/use-a-custom-domain-BymMexwJVHG"
      else p
    (true, p)

def detectStrikingly (p : Page) (addrs : List String) (cname body : String) : Bool × Page :=
  let detected := addrDetected addrs "54.183.102.22"
  let detected := if hasSuffix cname ".s.strikinglydns.com." then true else detected
  if detected then
    let p := p.AddTag "Strikingly" "info" "https://www.strikingly.com/"
    let p := if contains body "But if you're looking to build your own website," then
        p.AddTag "Domain Takeover" "danger"
          "https://support.strikingly.com/hc/en-us/articles/215046947-Connect-Custom-Domain"
      else p
    (true, p)
  else (false, p)

def detectUptimeRobot (p : Page) (cname body : String) : Bool × Page :=
  if cname ≠ "stats.uptimerobot.com." then (false, p)
  else
    let p := p.AddTag "UptimeRobot" "info" "https://uptimerobot.com/"
    let p := if contains body "This public status page <b>does not seem to exist</b>." then
        p.AddTag "Domain Takeover" "danger"
          "https://blog.uptimerobot.com/introducing-public-status-pages-yay/"
      else p
    (true, p)

def detectPantheon (p : Page) (cname body : String) : Bool × Page :=
  if !hasSuffix cname ".pantheonsite.io." then (false, p)
  else
    let p := p.AddTag "Pantheon" "info" "https://pantheon.io/"
    let p := if contains body "The gods are wise" then
        p.AddTag "Domain Takeover" "danger" "https://pantheon.io/docs/domains/"
      else p
    (true, p)

/-! ## Takeover detector: the chain -/

/-- The body of `runDetectorFunctions` from the first detector call on: the twenty detector
functions in their fixed order, each one ending the run when it returns `true`. -/
def detectorChain (page : Page) (addrs : List String) (cname body : String) : Page :=
  let r := detectGithubPages page addrs body
  if r.1 then r.2 else
  let r := detectAmazonS3 r.2 cname body
  if r.1 then r.2 else
  let r := detectCampaignMonitor r.2 cname body
  if r.1 then r.2 else
  let r := detectCargoCollective r.2 cname body
  if r.1 then r.2 else
  let r := detectFeedPress r.2 cname body
  if r.1 then r.2 else
  let r := detectGhost r.2 cname body
  if r.1 then r.2 else
  let r := detectHelpjuice r.2 cname body
  if r.1 then r.2 else
  let r := detectHelpScout r.2 cname body
  if r.1 then r.2 else
  let r := detectHeroku r.2 cname body
  if r.1 then r.2 else
  let r := detectJetBrains r.2 cname body
  if r.1 then r.2 else
  let r := detectMicrosoftAzure r.2 cname body
  if r.1 then r.2 else
  let r := detectReadme r.2 cname body
  if r.1 then r.2 else
  let r := detectSurge r.2 addrs cname body
  if r.1 then r.2 else
  let r := detectTumblr r.2 addrs cname body
  if r.1 then r.2 else
  let r := detectUserVoice r.2 cname body
  if r.1 then r.2 else
  let r := detectWordpress r.2 cname body
  if r.1 then r.2 else
  let r := detectSmugMug r.2 cname body
  if r.1 then r.2 else
  let r := detectStrikingly r.2 addrs cname body
  if r.1 then r.2 else
  let r := detectUptimeRobot r.2 cname body
  if r.1 then r.2 else
  (detectPantheon r.2 cname body).2

/-- A `script` element of a parsed document with its `src` attribute, if it has one. -/
structure ScriptTag where
  Src : Option String
deriving DecidableEq, Repr

/-- A `meta` element of a parsed document with its `name` and `content` attributes, where it
has them. -/
structure MetaTag where
  Name : Option String
  Content : Option String
deriving DecidableEq, Repr

/-- What the fingerprinter reads off a parsed document (`goquery.Document`): the selections
`doc.Find("script")` and `doc.Find("meta")`, in document order. -/
structure Document where
  Scripts : List ScriptTag
  Metas : List MetaTag
deriving DecidableEq, Repr

/-- How a run of the browser ends: it cannot be started, it exits with an error, it is ended
by the deadline, or it exits normally. -/
inductive ChromeResult where
  | StartError
  | ExitError
  | Timeout
  | Exited
deriving DecidableEq, Repr

/-- What the environment of an agent answers: the resolver (`net.LookupHost`,
`net.LookupCNAME`), the output directory (`Session.ReadFile`, `none` for an error), the HTML
parser (`goquery.NewDocumentFromReader`, `none` for an error), and the methods of `core.Page`
that `core/page.go` defines outside the sources (`ParsedURL().Hostname()`, `BaseFilename()`,
`IsIPHost()`); the network (`net.DialTimeout` gave a connection, `tls.DialWithDialer` gave no
error), the file system (`os.Stat` gave an error for which `os.IsNotExist` holds), the
effective user id, `RandomUserAgent()`, `path.Join` and the run of the browser on a path and
an argument list. -/
structure World where
  LookupHost : String → Option (List String)
  LookupCNAME : String → Option String
  ReadFile : String → Option String
  ParseHTML : String → Option Document
  Hostname : Page → String
  BaseFilename : Page → String
  IsIPHost : Page → Bool
  TCPDial : String → Int → Bool
  TLSDial : String → Int → Bool
  NotExist : String → Bool
  Geteuid : Nat
  RandomUserAgent : String
  PathJoin : String → String → String
  RunChrome : String → List String → ChromeResult

/-- The events of the bus the embedded agents publish (`core.TCPPort`, `core.URL`,
`core.URLResponsive`). -/
inductive Event where
  | TCPPort (port : Int) (host : String)
  | URL (url : String)
  | URLResponsive (url : String)
deriving DecidableEq, Repr

/-- The units of outside work an agent performs, in the order it performs them. -/
inductive Effect where
  | LookupHost (name : String)
  | LookupCNAME (name : String)
  | ReadFile (path : String)
  | WaitGroupAdd
  | WaitGroupDone
  | TCPDial (host : String) (port : Int)
  | TLSDial (host : String) (port : Int)
  | RunChrome (arguments : List String)
  | Publish (event : Event)
  | HTTPGet (url : String)
  | WriteFile (path : String)
deriving DecidableEq, Repr

/-- `URLTakeoverDetector.runDetectorFunctions`: the two lookups and the read of the stored
body, each ending the run on failure, then the detector chain.  Returns the effects performed
and the record. -/
def runDetectorFunctions (w : World) (page : Page) : List Effect × Page :=
  let hostname := w.Hostname page
  match w.LookupHost (hostname ++ ".") with
  | none => ([Effect.LookupHost (hostname ++ ".")], page)
  | some addrs =>
    match w.LookupCNAME (hostname ++ ".") with
    | none => ([Effect.LookupHost (hostname ++ "."), Effect.LookupCNAME (hostname ++ ".")], page)
    | some cname =>
      let path := "html/" ++ w.BaseFilename page ++ ".html"
      let effects := [Effect.LookupHost (hostname ++ "."), Effect.LookupCNAME (hostname ++ "."),
        Effect.ReadFile path]
      match w.ReadFile path with
      | none => (effects, page)
      | some body => (effects, detectorChain page addrs cname body)

/-! ## The record store -/

/-- Lookup in a Go `map[string]V`, embedded as an association list. -/
def mapGet {V : Type} (m : List (String × V)) (k : String) : Option V :=
  match m with
  | [] => none
  | (k1, v) :: rest => if k1 = k then some v else mapGet rest k

/-- Assignment `m[k] = v` in a Go `map[string]V`: the entry of `k` is replaced when there is
one and added otherwise. -/
def mapSet {V : Type} (m : List (String × V)) (k : String) (v : V) : List (String × V) :=
  match m with
  | [] => [(k, v)]
  | (k1, v1) :: rest => if k1 = k then (k, v) :: rest else (k1, v1) :: mapSet rest k v

/-- The number of entries a map holds for a key. -/
def mapCount {V : Type} (m : List (String × V)) (k : String) : Nat :=
  (m.filter (fun e => decide (e.1 = k))).length

/-- The part of `core.Session` the agents share: the record store `Pages`. -/
structure Session where
  Pages : List (String × Page)
deriving DecidableEq, Repr

/-- `Session.GetPage`. -/
def Session.GetPage (s : Session) (url : String) : Option Page :=
  mapGet s.Pages url

/-- `Session.AddPage`; `NewPage` is the constructor of `core/page.go`, which is not part of
the sources and is taken as a parameter (`none` when it returns an error). -/
def Session.AddPage (NewPage : String → Option Page) (s : Session) (url : String) :
    Option Page × Session :=
  match mapGet s.Pages url with
  | some page => (some page, s)
  | none =>
    match NewPage url with
    | none => (none, s)
    | some page => (some page, { s with Pages := mapSet s.Pages url page })

/-- `URLTakeoverDetector.OnURLResponsive`: the record is looked up, a record with an IP
literal as host is skipped, and otherwise one unit of work runs the detector functions on the
record, which the store holds by reference. -/
def URLTakeoverDetector.OnURLResponsive (w : World) (s : Session) (u : String) :
    List Effect × Session :=
  match s.GetPage u with
  | none => ([], s)
  | some page =>
    if w.IsIPHost page then ([], s)
    else
      let r := runDetectorFunctions w page
      ([Effect.WaitGroupAdd] ++ r.1 ++ [Effect.WaitGroupDone],
        { s with Pages := mapSet s.Pages u r.2 })

/-! ## Technology fingerprinter -/

/-- A compiled pattern (`FingerprintRegexp`, a `*regexp.Regexp`), embedded by what the
fingerprinter uses of it: `Regexp.MatchString`. -/
structure FingerprintRegexp where
  MatchString : String → Bool

/-- The rule `Fingerprint`.  Of the rules in `Implies` only the names are read, so the field
holds the names; the maps `Headers`, `Meta`, `HeaderFingerprints` and `MetaFingerprints` are
association lists. -/
structure Fingerprint where
  Name : String
  Categories : List String
  Implies : List String
  Website : String
  Headers : List (String × String)
  HTML : List String
  Script : List String
  Meta : List (String × String)
  HeaderFingerprints : List (String × FingerprintRegexp)
  HTMLFingerprints : List FingerprintRegexp
  ScriptFingerprints : List FingerprintRegexp
  MetaFingerprints : List (String × FingerprintRegexp)

/-- The agent `URLTechnologyFingerprinter` with its loaded ruleset. -/
structure URLTechnologyFingerprinter where
  fingerprints : List Fingerprint

/-- `URLTechnologyFingerprinter.fingerprintHeaders`: for every header of the record, every
rule and every header pattern of the rule under the header's name that matches the header's
value, the rule is appended to the result. -/
def URLTechnologyFingerprinter.fingerprintHeaders (uf : URLTechnologyFingerprinter)
    (page : Page) : List Fingerprint :=
  page.Headers.flatMap fun header =>
    uf.fingerprints.flatMap fun fingerprint =>
      fingerprint.HeaderFingerprints.flatMap fun entry =>
        if entry.1 ≠ header.Name then []
        else if entry.2.MatchString header.Value then [fingerprint] else []

/-- The three loops of `fingerprintBody` for one rule: the HTML patterns on the body, the
script patterns on every `src` attribute, the meta patterns on the `content` attribute of
every `meta` element of the pattern's name (a missing attribute reads as the empty string). -/
def fingerprintRule (fingerprint : Fingerprint) (strBody : String) (doc : Document) :
    List Fingerprint :=
  (fingerprint.HTMLFingerprints.flatMap fun pattern =>
      if pattern.MatchString strBody then [fingerprint] else []) ++
  (fingerprint.ScriptFingerprints.flatMap fun pattern =>
      doc.Scripts.flatMap fun s =>
        match s.Src with
        | some script => if pattern.MatchString script then [fingerprint] else []
        | none => []) ++
  (fingerprint.MetaFingerprints.flatMap fun entry =>
      doc.Metas.flatMap fun s =>
        if s.Name.getD "" = entry.1 then
          (if entry.2.MatchString (s.Content.getD "") then [fingerprint] else [])
        else [])

/-- `URLTechnologyFingerprinter.fingerprintBody`: no rule when the stored body cannot be read
or parsed, and otherwise the matches of every rule in ruleset order. -/
def URLTechnologyFingerprinter.fingerprintBody (uf : URLTechnologyFingerprinter) (w : World)
    (page : Page) : List Fingerprint :=
  match w.ReadFile ("html/" ++ w.BaseFilename page ++ ".html") with
  | none => []
  | some body =>
    match w.ParseHTML body with
    | none => []
    | some doc => uf.fingerprints.flatMap fun fingerprint => fingerprintRule fingerprint body doc

/-- The innermost loop of `OnURLResponsive`: the first rule of the ruleset with the implied
name is added as a tag, and the loop breaks. -/
def lookupLoop (page : Page) (implName : String) : List Fingerprint → Page
  | [] => page
  | implf :: rest =>
    if implName = implf.Name then page.AddTag implf.Name "info" implf.Website
    else lookupLoop page implName rest

/-- The loop over `f.Implies` of `OnURLResponsive`; the set `seen` is a list of names. -/
def impliesLoop (fingerprints : List Fingerprint) (seen : List String) (page : Page) :
    List String → List String × Page
  | [] => (seen, page)
  | impl :: rest =>
    if impl ∈ seen then impliesLoop fingerprints seen page rest
    else impliesLoop fingerprints (impl :: seen) (lookupLoop page impl fingerprints) rest

/-- The loop over the matched rules of `OnURLResponsive`. -/
def tagLoop (fingerprints : List Fingerprint) (seen : List String) (page : Page) :
    List Fingerprint → List String × Page
  | [] => (seen, page)
  | f :: rest =>
    if f.Name ∈ seen then tagLoop fingerprints seen page rest
    else
      let r := impliesLoop fingerprints (f.Name :: seen)
        (page.AddTag f.Name "info" f.Website) f.Implies
      tagLoop fingerprints r.1 r.2 rest

/-- The rules one pass matches directly, in the order of the pass:
`append(uf.fingerprintHeaders(page), uf.fingerprintBody(page)...)`. -/
def URLTechnologyFingerprinter.matched (uf : URLTechnologyFingerprinter) (w : World)
    (page : Page) : List Fingerprint :=
  uf.fingerprintHeaders page ++ uf.fingerprintBody w page

/-- The unit of work of `URLTechnologyFingerprinter.OnURLResponsive` on a record: one
fingerprint pass, starting from an empty `seen`. -/
def URLTechnologyFingerprinter.fingerprintPass (uf : URLTechnologyFingerprinter) (w : World)
    (page : Page) : Page :=
  (tagLoop uf.fingerprints [] page (uf.matched w page)).2

/-- `URLTechnologyFingerprinter.OnURLResponsive`: the record is looked up and one unit of
work runs the fingerprint pass on it. -/
def URLTechnologyFingerprinter.OnURLResponsive (uf : URLTechnologyFingerprinter) (w : World)
    (s : Session) (url : String) : List Effect × Session :=
  match s.GetPage url with
  | none => ([], s)
  | some page =>
    ([Effect.WaitGroupAdd, Effect.ReadFile ("html/" ++ w.BaseFilename page ++ ".html"),
      Effect.WaitGroupDone],
      { s with Pages := mapSet s.Pages url (uf.fingerprintPass w page) })

/-- The tags a run added to a record: the tags of the record after the run that come after
the ones it had before. -/
def addedTags (before after : Page) : List Tag :=
  after.Tags.drop before.Tags.length

/-- A record without tags, for the examples. -/
def emptyPage (url : String) : Page :=
  { UUID := "", URL := url, Hostname := "", Addrs := [], Status := "", Headers := [],
    HeadersPath := "", BodyPath := "", ScreenshotPath := "", HasScreenshot := false,
    PageTitle := "", Tags := [] }

/-! ## Takeover detector: the provider table read off the detector functions -/

/-- The providers of the chain, one per detector function, in the order of the calls. -/
inductive Provider where
  | GithubPages | AmazonS3 | CampaignMonitor | CargoCollective | FeedPress | Ghost
  | Helpjuice | HelpScout | Heroku | JetBrains | MicrosoftAzure | Readme | Surge | Tumblr
  | UserVoice | Wordpress | SmugMug | Strikingly | UptimeRobot | Pantheon
deriving DecidableEq, Repr

/-- The fixed order of the detector calls in `runDetectorFunctions`. -/
def providers : List Provider :=
  [.GithubPages, .AmazonS3, .CampaignMonitor, .CargoCollective, .FeedPress, .Ghost,
   .Helpjuice, .HelpScout, .Heroku, .JetBrains, .MicrosoftAzure, .Readme, .Surge, .Tumblr,
   .UserVoice, .Wordpress, .SmugMug, .Strikingly, .UptimeRobot, .Pantheon]

/-- The identification condition of a provider: the condition under which its detector
function goes on to the body check instead of returning `false` at once. -/
def identified (pr : Provider) (addrs : List String) (cname : String) : Bool :=
  match pr with
  | .GithubPages => githubAddrs.any (fun githubAddr => addrDetected addrs githubAddr)
  | .AmazonS3 => hasSuffix cname ".amazonaws.com."
  | .CampaignMonitor => decide (cname = "cname.createsend.com.")
  | .CargoCollective => decide (cname = "subdomain.cargocollective.com.")
  | .FeedPress => decide (cname = "redirect.feedpress.me.")
  | .Ghost => hasSuffix cname ".ghost.io."
  | .Helpjuice => hasSuffix cname ".helpjuice.com."
  | .HelpScout => hasSuffix cname ".helpscoutdocs.com."
  | .Heroku =>
    [".herokudns.com.", ".herokuapp.com.", ".herokussl.com."].any (fun c => hasSuffix cname c)
  | .JetBrains => hasSuffix cname ".myjetbrains.com."
  | .MicrosoftAzure => hasSuffix cname ".azurewebsites.net."
  | .Readme => [".readme.io.", ".readmessl.com."].any (fun c => hasSuffix cname c)
  | .Surge => addrDetected addrs "45.55.110.124" || decide (cname = "na-west1.surge.sh.")
  | .Tumblr => addrDetected addrs "66.6.44.4" || decide (cname = "domains.tumblr.com.")
  | .UserVoice => hasSuffix cname ".uservoice.com."
  | .Wordpress => hasSuffix cname ".wordpress.com."
  | .SmugMug => decide (cname = "domains.smugmug.com.")
  | .Strikingly => addrDetected addrs "54.183.102.22" || hasSuffix cname ".s.strikinglydns.com."
  | .UptimeRobot => decide (cname = "stats.uptimerobot.com.")
  | .Pantheon => hasSuffix cname ".pantheonsite.io."

/-- The fingerprint strings a detector function looks for in the body; `detectSmugMug`
looks for none (it compares the body with the empty string). -/
def fingerprints : Provider → List String
  | .GithubPages => githubFingerprints
  | .AmazonS3 => ["NoSuchBucket", "The specified bucket does not exist"]
  | .CampaignMonitor => ["Double check the URL or "]
  | .CargoCollective => ["404 Not Found"]
  | .FeedPress => ["The feed has not been found."]
  | .Ghost => ["The thing you were looking for is no longer here, or never was"]
  | .Helpjuice => ["We could not find what you're looking for."]
  | .HelpScout => ["No settings were found for this company:"]
  | .Heroku => ["No such app"]
  | .JetBrains => ["is not a registered InCloud YouTrack"]
  | .MicrosoftAzure => ["404 Web Site not found"]
  | .Readme => ["Project doesnt exist... yet!"]
  | .Surge => ["project not found"]
  | .Tumblr => ["Whatever you were looking for doesn't currently exist at this address"]
  | .UserVoice => ["This UserVoice subdomain is currently available!"]
  | .Wordpress => ["Do you want to register"]
  | .SmugMug => []
  | .Strikingly => ["But if you're looking to build your own website,"]
  | .UptimeRobot => ["This public status page <b>does not seem to exist</b>."]
  | .Pantheon => ["The gods are wise"]

/-- The body check of a detector function: some fingerprint string occurs in the body, and
for `detectSmugMug` the body is empty. -/
def vulnerable (pr : Provider) (body : String) : Bool :=
  match pr with
  | .SmugMug => decide (body = "")
  | pr => (fingerprints pr).any (fun fingerprint => contains body fingerprint)

/-- The link of the "Domain Takeover" tag of a detector function. -/
def takeoverLink : Provider → String
  | .GithubPages => "https://help.github.com/articles/using-a-custom-domain-with-github-pages/"
  | .AmazonS3 =>
    "https://docs.aws.amazon.com/AmazonS3/latest/dev/website-hosting-custom-domain-walkthrough.html"
  | .CampaignMonitor => "https://help.campaignmonitor.com/custom-domain-names"
  | .CargoCollective => "https://support.2.cargocollective.com/Using-a-Third-Party-Domain"
  | .FeedPress => "https://support.feed.press/article/61-how-to-create-a-custom-hostname"
  | .Ghost => "https://docs.ghost.org/faq/using-custom-domains/"
  | .Helpjuice => "https://help.helpjuice.com/34339-getting-started/custom-domain"
  | .HelpScout => "https://docs.helpscout.net/article/42-setup-custom-domain"
  | .Heroku => "https://devcenter.heroku.com/articles/custom-domains"
  | .JetBrains =>
    "https://www.jetbrains.com/help/youtrack/incloud/Domain-Settings.html#use-custom-domain-name"
  | .MicrosoftAzure =>
    "https://docs.microsoft.com/en-us/azure/app-service/app-service-web-tutorial-custom-domain"
  | .Readme => "https://readme.readme.io/docs/setting-up-custom-domain"
  | .Surge => "https://surge.sh/help/adding-a-custom-domain"
  | .Tumblr => "https://tumblr.zendesk.com/hc/en-us/articles/231256548-Custom-domains"
  | .UserVoice => "https://developer.uservoice.com/docs/site/domain-aliasing/"
  | .Wordpress => "https://en.support.wordpress.com/domains/map-subdomain/"
  | .SmugMug => "https://help.smugmug.com/use-a-custom-domain-BymMexwJVHG"
  | .Strikingly =>
    "https://support.strikingly.com/hc/en-us/articles/215046947-Connect-Custom-Domain"
  | .UptimeRobot => "https://blog.uptimerobot.com/introducing-public-status-pages-yay/"
  | .Pantheon => "https://pantheon.io/docs/domains/"

/-- The informational tag a detector function adds on identification; five of the functions
add none. -/
def infoTag : Provider → Option Tag
  | .GithubPages => none
  | .AmazonS3 => none
  | .CampaignMonitor => some ⟨"Campaign Monitor", "info", "https://www.campaignmonitor.com/"⟩
  | .CargoCollective => some ⟨"Cargo Collective", "info", "https://cargocollective.com/"⟩
  | .FeedPress => some ⟨"FeedPress", "info", "https://feed.press/"⟩
  | .Ghost => none
  | .Helpjuice => some ⟨"Helpjuice", "info", "https://helpjuice.com/"⟩
  | .HelpScout => some ⟨"HelpScout", "info", "https://www.helpscout.net/"⟩
  | .Heroku => some ⟨"Heroku", "info", "https://www.heroku.com/"⟩
  | .JetBrains => some ⟨"JetBrains", "info", "https://www.jetbrains.com/"⟩
  | .MicrosoftAzure => some ⟨"Microsoft Azure", "info", "https://azure.microsoft.com/"⟩
  | .Readme => some ⟨"Readme", "info", "https://readme.io/"⟩
  | .Surge => some ⟨"Surge", "info", "https://surge.sh/"⟩
  | .Tumblr => none
  | .UserVoice => some ⟨"UserVoice", "info", "https://www.uservoice.com/"⟩
  | .Wordpress => none
  | .SmugMug => some ⟨"SmugMug", "info", "https://www.smugmug.com/"⟩
  | .Strikingly => some ⟨"Strikingly", "info", "https://www.strikingly.com/"⟩
  | .UptimeRobot => some ⟨"UptimeRobot", "info", "https://uptimerobot.com/"⟩
  | .Pantheon => some ⟨"Pantheon", "info", "https://pantheon.io/"⟩

/-- The first provider, in the order of the chain, whose identification condition holds. -/
def firstIdentified (addrs : List String) (cname : String) : Option Provider :=
  providers.find? (fun pr => identified pr addrs cname)

/-- The tags a detector function adds once its provider is identified. -/
def providerTags (pr : Provider) (body : String) : List Tag :=
  (infoTag pr).toList ++
    (if vulnerable pr body then [⟨"Domain Takeover", "danger", takeoverLink pr⟩] else [])

/-- The value a detector function returns once its provider is identified: `true`, except
that `detectHelpjuice` returns `false` when the body check fails. -/
def providerStops (pr : Provider) (body : String) : Bool :=
  match pr with
  | .Helpjuice => vulnerable .Helpjuice body
  | _ => true

/-- A detector function as a step over the table. -/
def providerStep (pr : Provider) (p : Page) (addrs : List String) (cname body : String) :
    Bool × Page :=
  if identified pr addrs cname then
    (providerStops pr body, { p with Tags := p.Tags ++ providerTags pr body })
  else (false, p)

/-- The chain over a list of providers: each step ends the run when it returns `true`. -/
def chainFrom (p : Page) (addrs : List String) (cname body : String) : List Provider → Page
  | [] => p
  | pr :: rest =>
    if (providerStep pr p addrs cname body).1 then (providerStep pr p addrs cname body).2
    else chainFrom (providerStep pr p addrs cname body).2 addrs cname body rest

/-- An environment in which no name resolves, no file can be read or found, no port accepts
a connection and the browser cannot be started; the host of a record is its `Hostname` field
and no host counts as an IP literal. -/
def offlineWorld : World :=
  { LookupHost := fun _ => none
    LookupCNAME := fun _ => none
    ReadFile := fun _ => none
    ParseHTML := fun _ => none
    Hostname := fun page => page.Hostname
    BaseFilename := fun page => page.UUID
    IsIPHost := fun _ => false
    TCPDial := fun _ _ => false
    TLSDial := fun _ _ => false
    NotExist := fun _ => true
    Geteuid := 1000
    RandomUserAgent := "Mozilla/5.0"
    PathJoin := fun dir p => dir ++ "/" ++ p
    RunChrome := fun _ _ => ChromeResult.StartError }

/-- An environment like `offlineWorld` in which every host counts as an IP literal. -/
def ipLiteralWorld : World :=
  { offlineWorld with IsIPHost := fun _ => true }

/-- What every loop of a fingerprint pass keeps true between the state `(seen, page)` it
starts from and the state `r` it ends in: the record's tags grow by a list of informational
tags with pairwise different names, every added name is in the new `seen` and was not in the
old one, `seen` only grows, and every name that entered `seen` and is the name of a rule of
the ruleset has a tag among the added ones. -/
def PassInv (fingerprints : List Fingerprint) (seen : List String) (page : Page)
    (r : List String × Page) : Prop :=
  ∃ l : List Tag, r.2.Tags = page.Tags ++ l ∧
    (l.map Tag.Text).Nodup ∧
    (∀ t ∈ l, t.Text ∈ r.1 ∧ t.Text ∉ seen ∧ t.TagType = "info") ∧
    (∀ n ∈ seen, n ∈ r.1) ∧
    (∀ n ∈ r.1, n ∉ seen → (∃ f ∈ fingerprints, f.Name = n) → ∃ t ∈ l, t.Text = n)

/-- A rule without patterns, for the examples. -/
def emptyRule (name website : String) (implies : List String) : Fingerprint :=
  { Name := name, Categories := [], Implies := implies, Website := website, Headers := [],
    HTML := [], Script := [], Meta := [], HeaderFingerprints := [], HTMLFingerprints := [],
    ScriptFingerprints := [], MetaFingerprints := [] }

/-- Example rule: WooCommerce, found by an HTML pattern, implies WordPress. -/
def wooCommerceRule : Fingerprint :=
  { emptyRule "WooCommerce" "https://woocommerce.com" ["WordPress"] with
    HTML := ["woocommerce"]
    HTMLFingerprints := [⟨fun s => contains s "woocommerce"⟩] }

/-- Example rule: WordPress, found by an HTML pattern, implies PHP. -/
def wordPressRule : Fingerprint :=
  { emptyRule "WordPress" "https://wordpress.org" ["PHP"] with
    HTML := ["wp-content"]
    HTMLFingerprints := [⟨fun s => contains s "wp-content"⟩] }

/-- Example rule: PHP, found by the `X-Powered-By` header. -/
def phpRule : Fingerprint :=
  { emptyRule "PHP" "https://php.net" [] with
    Headers := [("X-Powered-By", "PHP")]
    HeaderFingerprints := [("X-Powered-By", ⟨fun s => contains s "PHP"⟩)] }

/-- An environment whose output directory holds the given body for every record and whose
parser finds no `script` and no `meta` element. -/
def bodyWorld (body : String) : World :=
  { offlineWorld with
    ReadFile := fun _ => some body
    ParseHTML := fun _ => some { Scripts := [], Metas := [] } }

/-- A constructor for the examples: like `NewPage`, which parses the URL first, it returns an
error for the string `:` (a URL without protocol scheme) and a fresh record for every other
URL. -/
def exampleNewPage (url : String) : Option Page :=
  if url = ":" then none else some (emptyPage url)

/-! ## Run statistics and options -/

/-- The counters of `core.Stats` (the two timestamps are left out); each counter is a
`uint32`, embedded as a natural number below `2 ^ 32`. -/
structure Stats where
  PortOpen : Nat
  PortClosed : Nat
  RequestSuccessful : Nat
  RequestFailed : Nat
  ResponseCode2xx : Nat
  ResponseCode3xx : Nat
  ResponseCode4xx : Nat
  ResponseCode5xx : Nat
  ScreenshotSuccessful : Nat
  ScreenshotFailed : Nat
deriving DecidableEq, Repr

/-- Addition `atomic.AddUint32(&counter, 1)`: the sum wraps around at `2 ^ 32`. -/
def addUint32 (counter : Nat) : Nat :=
  (counter + 1) % 2 ^ 32

def Stats.IncrementPortOpen (s : Stats) : Stats :=
  { s with PortOpen := addUint32 s.PortOpen }

def Stats.IncrementPortClosed (s : Stats) : Stats :=
  { s with PortClosed := addUint32 s.PortClosed }

def Stats.IncrementScreenshotSuccessful (s : Stats) : Stats :=
  { s with ScreenshotSuccessful := addUint32 s.ScreenshotSuccessful }

def Stats.IncrementScreenshotFailed (s : Stats) : Stats :=
  { s with ScreenshotFailed := addUint32 s.ScreenshotFailed }

/-- Statistics with every counter at zero, for the examples. -/
def zeroStats : Stats :=
  { PortOpen := 0, PortClosed := 0, RequestSuccessful := 0, RequestFailed := 0,
    ResponseCode2xx := 0, ResponseCode3xx := 0, ResponseCode4xx := 0, ResponseCode5xx := 0,
    ScreenshotSuccessful := 0, ScreenshotFailed := 0 }

/-- Modelled from the spec: `core.Options` is declared in `core/options.go`, which is not part
of the sources; the fields are the options the embedded functions read. -/
structure Options where
  Threads : Nat
  Ports : String
  ChromePath : String
  Proxy : String
  Resolution : String
  OutDir : String
  SaveBody : Bool
deriving DecidableEq, Repr

/-- Options with nothing configured, for the examples. -/
def defaultOptions : Options :=
  { Threads := 0, Ports := "", ChromePath := "", Proxy := "", Resolution := "1440,900",
    OutDir := ".", SaveBody := true }

/-- The events a trace of effects published, in order. -/
def published : List Effect → List Event
  | [] => []
  | Effect.Publish event :: rest => event :: published rest
  | _ :: rest => published rest

/-! ## Scheme classifier (`URLPublisher`) -/

/-- `URLPublisher.isTLS`: the verdict, and the handshake when one was attempted. -/
def URLPublisher.isTLS (w : World) (port : Int) (host : String) : Bool × List Effect :=
  if port = 80 then (false, [])
  else if port = 443 then (true, [])
  else (w.TLSDial host port, [Effect.TLSDial host port])

/-- `URLPublisher.OnTCPPort`; `HostAndPortToURL` is defined in a file of the package that is
not part of the sources and is taken as a parameter. -/
def URLPublisher.OnTCPPort (w : World) (HostAndPortToURL : String → Int → String → String)
    (port : Int) (host : String) : List Effect :=
  let r := URLPublisher.isTLS w port host
  let url :=
    if r.1 then HostAndPortToURL host port "https" else HostAndPortToURL host port "http"
  r.2 ++ [Effect.Publish (Event.URL url)]

/-! ## Port scanner (`TCPPortScanner`) -/

/-- `TCPPortScanner.scanPort`: the connect attempt gave a connection. -/
def TCPPortScanner.scanPort (w : World) (port : Int) (host : String) : Bool :=
  w.TCPDial host port

/-- The unit of work `OnHost` starts for one port. -/
def TCPPortScanner.scanUnit (w : World) (host : String) (stats : Stats) (port : Int) :
    Stats × List Effect :=
  if TCPPortScanner.scanPort w port host then
    (stats.IncrementPortOpen,
      [Effect.WaitGroupAdd, Effect.TCPDial host port,
        Effect.Publish (Event.TCPPort port host), Effect.WaitGroupDone])
  else
    (stats.IncrementPortClosed,
      [Effect.WaitGroupAdd, Effect.TCPDial host port, Effect.WaitGroupDone])

/-- `TCPPortScanner.OnHost` over the configured ports `session.Ports`: one unit of work per
port, taken here in the order of the ports. -/
def TCPPortScanner.OnHost (w : World) (host : String) : Stats → List Int → Stats × List Effect
  | stats, [] => (stats, [])
  | stats, port :: rest =>
    let r := TCPPortScanner.scanUnit w host stats port
    let r2 := TCPPortScanner.OnHost w host r.1 rest
    (r2.1, r.2 ++ r2.2)

/-! ## The limiter around units of work -/

/-- The effects that block: a lookup, a file read or write, a connect, a handshake, a
request, a browser run. -/
def Effect.isBlocking : Effect → Bool
  | .LookupHost _ => true
  | .LookupCNAME _ => true
  | .ReadFile _ => true
  | .TCPDial _ _ => true
  | .TLSDial _ _ => true
  | .RunChrome _ => true
  | .HTTPGet _ => true
  | .WriteFile _ => true
  | _ => false

/-- A trace keeps its blocking work inside the limiter: scanning it with the number of held
slots, every `WaitGroupDone` releases a held slot, every blocking effect happens while a slot
is held, and no slot is held at the end. -/
def unitsGuarded : Nat → List Effect → Bool
  | held, [] => held == 0
  | held, Effect.WaitGroupAdd :: rest => unitsGuarded (held + 1) rest
  | 0, Effect.WaitGroupDone :: _ => false
  | held + 1, Effect.WaitGroupDone :: rest => unitsGuarded held rest
  | held, effect :: rest => (!effect.isBlocking || decide (0 < held)) && unitsGuarded held rest

/-! ## Screenshot capturer (`URLScreenshotter`) -/

/-- The agent `URLScreenshotter` with the two paths it holds. -/
structure URLScreenshotter where
  chromePath : String
  tempUserDirPath : String
deriving DecidableEq, Repr

/-- The list `paths` of `locateChrome`. -/
def chromePaths : List String :=
  ["/usr/bin/google-chrome",
   "/usr/bin/google-chrome-beta",
   "/usr/bin/google-chrome-unstable",
   "/usr/bin/chromium-browser",
   "/usr/bin/chromium",
   "/Applications/Google Chrome.app/Contents/MacOS/Google Chrome",
   "/Applications/Google Chrome Canary.app/Contents/MacOS/Google Chrome Canary",
   "/Applications/Chromium.app/Contents/MacOS/Chromium",
   "C:/Program Files (x86)/Google/Chrome/Application/chrome.exe"]

/-- The loop of `locateChrome` over `paths`: a path that does not exist is skipped, any other
path is assigned to `us.chromePath`, and the loop goes on. -/
def locateLoop (w : World) : String → List String → String
  | chromePath, [] => chromePath
  | chromePath, path :: rest =>
    if w.NotExist path then locateLoop w chromePath rest
    else locateLoop w path rest

/-- `URLScreenshotter.locateChrome` up to the point where the path is settled (what follows
only prints warnings): the path assigned to `us.chromePath`, `none` when the run is aborted
with `os.Exit(1)`. -/
def URLScreenshotter.locateChrome (w : World) (options : Options) (us : URLScreenshotter) :
    Option String :=
  if options.ChromePath ≠ "" then some options.ChromePath
  else
    let chromePath := locateLoop w us.chromePath chromePaths
    if chromePath = "" then none else some chromePath

/-- The argument list `chromeArguments` that `screenshotPage` builds for a record. -/
def URLScreenshotter.chromeArguments (w : World) (options : Options) (us : URLScreenshotter)
    (page : Page) : List String :=
  let filePath := "screenshots/" ++ w.BaseFilename page ++ ".png"
  let chromeArguments :=
    ["--headless", "--disable-gpu", "--hide-scrollbars", "--mute-audio",
     "--disable-notifications", "--no-first-run", "--disable-crash-reporter",
     "--ignore-certificate-errors", "--incognito", "--disable-infobars", "--disable-sync",
     "--no-default-browser-check",
     "--user-data-dir=" ++ us.tempUserDirPath,
     "--user-agent=" ++ w.RandomUserAgent,
     "--window-size=" ++ options.Resolution,
     "--screenshot=" ++ w.PathJoin options.OutDir filePath]
  let chromeArguments :=
    if w.Geteuid = 0 then chromeArguments ++ ["--no-sandbox"] else chromeArguments
  let chromeArguments :=
    if options.Proxy ≠ "" then chromeArguments ++ ["--proxy-server=" ++ options.Proxy]
    else chromeArguments
  chromeArguments ++ [page.URL]

/-- `URLScreenshotter.screenshotPage` on the statistics and the record. -/
def URLScreenshotter.screenshotPage (w : World) (options : Options) (us : URLScreenshotter)
    (stats : Stats) (page : Page) : Stats × Page :=
  let filePath := "screenshots/" ++ w.BaseFilename page ++ ".png"
  match w.RunChrome us.chromePath (us.chromeArguments w options page) with
  | ChromeResult.StartError => (stats.IncrementScreenshotFailed, page)
  | ChromeResult.ExitError => (stats.IncrementScreenshotFailed, page)
  | ChromeResult.Timeout => (stats.IncrementScreenshotFailed, page)
  | ChromeResult.Exited =>
    (stats.IncrementScreenshotSuccessful,
      { page with ScreenshotPath := filePath, HasScreenshot := true })

/-- Go `strings.HasPrefix(s, prefix)`. -/
def hasPrefix (s pre : String) : Bool :=
  pre.data.isPrefixOf s.data

/-- The profile directory argument of an argument list: its first `--user-data-dir=`
argument. -/
def userDataDirArgument (arguments : List String) : Option String :=
  arguments.find? (fun argument => hasPrefix argument "--user-data-dir=")

/-- An environment like `offlineWorld` in which Google Chrome and Chromium are both installed
under `/usr/bin`. -/
def chromeAndChromiumWorld : World :=
  { offlineWorld with
    NotExist := fun path =>
      !(decide (path = "/usr/bin/google-chrome") || decide (path = "/usr/bin/chromium")) }

/-! ## Fingerprint rules: loading the patterns -/

/-- `Fingerprint.compilePattern`; `compile` is `regexp.Compile`, `none` for an error. -/
def Fingerprint.compilePattern (compile : String → Option FingerprintRegexp) (p : String) :
    Option FingerprintRegexp :=
  match compile p with
  | none => none
  | some r => some r

/-- The loops of `LoadPatterns` over the maps `Headers` and `Meta`: an entry whose pattern
does not compile is skipped, any other is stored under its key. -/
def loadMapLoop (compile : String → Option FingerprintRegexp) :
    List (String × String) → List (String × FingerprintRegexp) →
      List (String × FingerprintRegexp)
  | [], loaded => loaded
  | (key, pattern) :: rest, loaded =>
    match Fingerprint.compilePattern compile pattern with
    | none => loadMapLoop compile rest loaded
    | some fingerprint => loadMapLoop compile rest (mapSet loaded key fingerprint)

/-- The loops of `LoadPatterns` over the lists `HTML` and `Script`: a pattern that does not
compile is skipped, any other is appended. -/
def loadListLoop (compile : String → Option FingerprintRegexp) :
    List String → List FingerprintRegexp → List FingerprintRegexp
  | [], loaded => loaded
  | pattern :: rest, loaded =>
    match Fingerprint.compilePattern compile pattern with
    | none => loadListLoop compile rest loaded
    | some fingerprint => loadListLoop compile rest (loaded ++ [fingerprint])

/-- `Fingerprint.LoadPatterns`. -/
def Fingerprint.LoadPatterns (compile : String → Option FingerprintRegexp) (f : Fingerprint) :
    Fingerprint :=
  { f with
    HeaderFingerprints := loadMapLoop compile f.Headers []
    HTMLFingerprints := loadListLoop compile f.HTML f.HTMLFingerprints
    ScriptFingerprints := loadListLoop compile f.Script f.ScriptFingerprints
    MetaFingerprints := loadMapLoop compile f.Meta [] }

/-- A pattern compiler for the examples: the pattern `(` does not compile, any other pattern
compiles to the search for the pattern as a literal substring. -/
def exampleCompile (p : String) : Option FingerprintRegexp :=
  if p = "(" then none else some ⟨fun s => contains s p⟩

/-! ## Artifact names -/

/-- The fields of a parsed `url.URL` that `BaseFilenameFromURL` reads. -/
structure URL where
  Scheme : String
  Host : String
  Path : String
  Fragment : String
deriving DecidableEq, Repr

/-- Go `strings.Replace(s, old, new, n)` for a one-character `old` and `n ≥ 0`: the first
`n` occurrences are replaced. -/
def replaceFirstN (old : Char) (new : List Char) : Nat → List Char → List Char
  | 0, s => s
  | _, [] => []
  | n + 1, c :: rest =>
    if c = old then new ++ replaceFirstN old new n rest
    else c :: replaceFirstN old new (n + 1) rest

/-- Go `strings.Replace(s, old, new, -1)` for a one-character `old`: every occurrence is
replaced. -/
def replaceEvery (old : Char) (new : List Char) : List Char → List Char
  | [] => []
  | c :: rest =>
    if c = old then new ++ replaceEvery old new rest else c :: replaceEvery old new rest

/-- Go `strings.ToLower` on the ASCII letters (other letters are left as they are). -/
def toLower (s : List Char) : List Char :=
  s.map Char.toLower

/-- `Session.BaseFilenameFromURL`; `parse` is `url.Parse` (`none` for an error) and `sha1hex`
the SHA-1 digest of a string in hexadecimal, of which the first 16 characters are kept. -/
def Session.BaseFilenameFromURL (parse : String → Option URL) (sha1hex : String → String)
    (str : String) : String :=
  match parse str with
  | none => ""
  | some u =>
    let pathHash := (sha1hex (u.Path ++ u.Fragment)).data.take 16
    let host := replaceFirstN ':' "__".data 1 u.Host.data
    let filename :=
      u.Scheme.data ++ "__".data ++ replaceEvery '.' "_".data host ++ "__".data ++ pathHash
    String.mk (toLower filename)

/-- A parser for the examples: it knows the URL `http://[::1]:8080/` and gives its parts as
`url.Parse` does. -/
def exampleParse (str : String) : Option URL :=
  if str = "http://[::1]:8080/" then
    some { Scheme := "http", Host := "[::1]:8080", Path := "/", Fragment := "" }
  else none

/-- A digest for the examples: the SHA-1 digest of the path `/` for every input. -/
def exampleSha1 (_ : String) : String :=
  "42099b4af021e53fd8fd4e056c2568d7c2e3ffa8"

/-! ## Artifact names: the host part -/

/-- The host part of a base filename before the lower-casing: the expression
`strings.Replace(strings.Replace(u.Host, ":", "__", 1), ".", "_", -1)` of
`BaseFilenameFromURL`. -/
def normalizedHost (host : String) : List Char :=
  replaceEvery '.' "_".data (replaceFirstN ':' "__".data 1 host.data)

/-- A parser for the examples: it knows the URLs `http://a.b.example.com/` and
`http://a_b.example.com/` and gives their parts as `url.Parse` does. -/
def exampleParseHosts (str : String) : Option URL :=
  if str = "http://a.b.example.com/" then
    some { Scheme := "http", Host := "a.b.example.com", Path := "/", Fragment := "" }
  else if str = "http://a_b.example.com/" then
    some { Scheme := "http", Host := "a_b.example.com", Path := "/", Fragment := "" }
  else none

/-! ## The port specification -/

/-- Go `strings.Split(s, sep)` for a one-character separator, on character lists. -/
def splitOn (sep : Char) : List Char → List (List Char)
  | [] => [[]]
  | c :: rest =>
    if c = sep then [] :: splitOn sep rest
    else
      match splitOn sep rest with
      | [] => [[c]]
      | item :: items => (c :: item) :: items

/-- Go `unicode.IsSpace`: the white space characters that `strings.TrimSpace` removes. -/
def isSpace (c : Char) : Bool :=
  c.toNat = 0x20 || (0x09 ≤ c.toNat && c.toNat ≤ 0x0D) || c.toNat = 0x85 || c.toNat = 0xA0 ||
  c.toNat = 0x1680 || (0x2000 ≤ c.toNat && c.toNat ≤ 0x200A) || c.toNat = 0x2028 ||
  c.toNat = 0x2029 || c.toNat = 0x202F || c.toNat = 0x205F || c.toNat = 0x3000

/-- Go `strings.TrimSpace`, on character lists. -/
def TrimSpace (s : List Char) : List Char :=
  ((s.dropWhile isSpace).reverse.dropWhile isSpace).reverse

/-- The value of a decimal digit, `none` for any other character. -/
def digitValue (c : Char) : Option Nat :=
  if 48 ≤ c.toNat ∧ c.toNat ≤ 57 then some (c.toNat - 48) else none

/-- The digit loop of `strconv.Atoi`: the value of a string of decimal digits read after the
value `acc`, `none` when a character is not a digit. -/
def parseDigits : List Char → Nat → Option Nat
  | [], acc => some acc
  | c :: rest, acc =>
    match digitValue c with
    | none => none
    | some d => parseDigits rest (acc * 10 + d)

/-- Go `strconv.Atoi` with a 64-bit `int`: an optional sign followed by one or more decimal
digits; `none` for a syntax error or a value out of the range of `int`. -/
def Atoi (s : List Char) : Option Int :=
  match s with
  | [] => none
  | c :: rest =>
    if c = '-' then
      (if rest = [] then none
       else match parseDigits rest 0 with
        | none => none
        | some n => if n ≤ 2 ^ 63 then some (-(n : Int)) else none)
    else if c = '+' then
      (if rest = [] then none
       else match parseDigits rest 0 with
        | none => none
        | some n => if n < 2 ^ 63 then some (n : Int) else none)
    else
      match parseDigits (c :: rest) 0 with
      | none => none
      | some n => if n < 2 ^ 63 then some (n : Int) else none

/-- The named port lists `SmallPortList`, `MediumPortList`, `LargePortList` and
`XLargePortList`, constants of the package that are not part of the sources. -/
structure PortLists where
  SmallPortList : List Int
  MediumPortList : List Int
  LargePortList : List Int
  XLargePortList : List Int
deriving DecidableEq, Repr

/-- The loop of `initPorts` over the items of a port specification; `none` when the run is
aborted with `os.Exit(1)`. -/
def initPortsLoop : List (List Char) → List Int → Option (List Int)
  | [], ports => some ports
  | p :: rest, ports =>
    match Atoi (TrimSpace p) with
    | none => none
    | some port =>
      if port < 1 ∨ port > 65535 then none
      else initPortsLoop rest (ports ++ [port])

/-- `Session.initPorts` on the option `Ports`: the list assigned to `s.Ports`, `none` when the
run is aborted. -/
def Session.initPorts (lists : PortLists) (spec : String) : Option (List Int) :=
  if spec = "small" then some lists.SmallPortList
  else if spec = "" ∨ spec = "medium" ∨ spec = "default" then some lists.MediumPortList
  else if spec = "large" then some lists.LargePortList
  else if spec = "xlarge" ∨ spec = "huge" then some lists.XLargePortList
  else initPortsLoop (splitOn ',' spec.data) []

/-- The value of a string of decimal digits read in base ten. -/
def digitsValue (digits : List Char) : Nat :=
  digits.foldl (fun acc c => acc * 10 + (c.toNat - 48)) 0

/-- What the spec calls a decimal integer: the string `s` is an optional sign followed by one
or more decimal digits, and `n` is its value. -/
def decimalInteger (s : List Char) (n : Int) : Prop :=
  ∃ digits : List Char, digits ≠ [] ∧ (∀ c ∈ digits, 48 ≤ c.toNat ∧ c.toNat ≤ 57) ∧
    ((s = digits ∧ n = (digitsValue digits : Int)) ∨
     (s = '+' :: digits ∧ n = (digitsValue digits : Int)) ∨
     (s = '-' :: digits ∧ n = -(digitsValue digits : Int)))

/-- Example port lists (the lists of the package are not part of the sources). -/
def examplePortLists : PortLists :=
  { SmallPortList := [80, 443], MediumPortList := [80, 443, 8000, 8080, 8443],
    LargePortList := [80, 443, 8000, 8080, 8443], XLargePortList := [80, 443, 8000, 8080, 8443] }

/-! ## HTTP requester (`URLRequester`) -/

def Stats.IncrementRequestSuccessful (s : Stats) : Stats :=
  { s with RequestSuccessful := addUint32 s.RequestSuccessful }

def Stats.IncrementRequestFailed (s : Stats) : Stats :=
  { s with RequestFailed := addUint32 s.RequestFailed }

def Stats.IncrementResponseCode2xx (s : Stats) : Stats :=
  { s with ResponseCode2xx := addUint32 s.ResponseCode2xx }

def Stats.IncrementResponseCode3xx (s : Stats) : Stats :=
  { s with ResponseCode3xx := addUint32 s.ResponseCode3xx }

def Stats.IncrementResponseCode4xx (s : Stats) : Stats :=
  { s with ResponseCode4xx := addUint32 s.ResponseCode4xx }

def Stats.IncrementResponseCode5xx (s : Stats) : Stats :=
  { s with ResponseCode5xx := addUint32 s.ResponseCode5xx }

/-- What `OnURL` reads of a response (`gorequest.Response`): the status code, the status
line, the header map as an association list, and the body (`none` when reading it fails). -/
structure Response where
  StatusCode : Int
  Status : String
  Header : List (String × List String)
  Body : Option String
deriving DecidableEq, Repr

/-- Modelled from the spec: `Page.AddHeader` is defined in `core/page.go`, which is not part
of the sources; the spec keeps an ordered list of header name/value pairs, so a header is
appended to the record's header list. -/
def Page.AddHeader (p : Page) (name value : String) : Page :=
  { p with Headers := p.Headers ++ [{ Name := name, Value := value }] }

/-- Go `strings.Join(elems, sep)`. -/
def joinStrings (sep : String) : List String → String
  | [] => ""
  | [elem] => elem
  | elem :: rest => elem ++ sep ++ joinStrings sep rest

/-- The loop of `createPageFromResponse` over the header map of the response. -/
def addHeadersLoop (page : Page) : List (String × List String) → Page
  | [] => page
  | (name, value) :: rest => addHeadersLoop (page.AddHeader name (joinStrings " " value)) rest

/-- `URLRequester.createPageFromResponse`: the record of the store for the URL with the
status line and the headers of the response, and the store holding it; no record on an error
of `AddPage`. -/
def URLRequester.createPageFromResponse (NewPage : String → Option Page) (s : Session)
    (url : String) (resp : Response) : Option Page × Session :=
  match s.AddPage NewPage url with
  | (none, s1) => (none, s1)
  | (some page, s1) =>
    let page := addHeadersLoop { page with Status := resp.Status } resp.Header
    (some page, { s1 with Pages := mapSet s1.Pages url page })

/-- `URLRequester.writeHeaders` on the record: the header artifact is written and its path
recorded. -/
def URLRequester.writeHeaders (w : World) (page : Page) : Page × List Effect :=
  let filepath := "headers/" ++ w.BaseFilename page ++ ".txt"
  ({ page with HeadersPath := filepath }, [Effect.WriteFile filepath])

/-- `URLRequester.writeBody` on the record: nothing when the body cannot be read, and
otherwise the body artifact is written and its path recorded. -/
def URLRequester.writeBody (w : World) (page : Page) (resp : Response) : Page × List Effect :=
  let filepath := "html/" ++ w.BaseFilename page ++ ".html"
  match resp.Body with
  | none => (page, [])
  | some _ => ({ page with BodyPath := filepath }, [Effect.WriteFile filepath])

/-- The status bucket of `OnURL`: the counter incremented for a status code. -/
def URLRequester.incrementResponseCode (stats : Stats) (statusCode : Int) : Stats :=
  if statusCode ≥ 500 then stats.IncrementResponseCode5xx
  else if statusCode ≥ 400 then stats.IncrementResponseCode4xx
  else if statusCode ≥ 300 then stats.IncrementResponseCode3xx
  else stats.IncrementResponseCode2xx

/-- The unit of work of `URLRequester.OnURL` on the statistics and the store; `get` is the
GET request through `gorequest` (`none` when it returns errors). -/
def URLRequester.OnURL (w : World) (get : String → Option Response)
    (NewPage : String → Option Page) (options : Options) (stats : Stats) (s : Session)
    (url : String) : Stats × Session × List Effect :=
  match get url with
  | none =>
    (stats.IncrementRequestFailed, s,
      [Effect.WaitGroupAdd, Effect.HTTPGet url, Effect.WaitGroupDone])
  | some resp =>
    let stats := stats.IncrementRequestSuccessful
    let stats := URLRequester.incrementResponseCode stats resp.StatusCode
    match URLRequester.createPageFromResponse NewPage s url resp with
    | (none, s1) => (stats, s1, [Effect.WaitGroupAdd, Effect.HTTPGet url, Effect.WaitGroupDone])
    | (some page, s1) =>
      let r1 := URLRequester.writeHeaders w page
      let r2 := if options.SaveBody then URLRequester.writeBody w r1.1 resp else (r1.1, [])
      (stats, { s1 with Pages := mapSet s1.Pages url r2.1 },
        [Effect.WaitGroupAdd, Effect.HTTPGet url] ++ r1.2 ++ r2.2 ++
          [Effect.Publish (Event.URLResponsive url), Effect.WaitGroupDone])

/-- A request for the examples: every URL answers with the given status code and status line,
without headers and with an empty body. -/
def exampleGet (statusCode : Int) (status : String) (_ : String) : Option Response :=
  some { StatusCode := statusCode, Status := status, Header := [], Body := some "" }

/-! ## Theorems -/

/-! ### The detector functions as steps over the provider table -/

theorem fingerprintLoop_eq (link : String) (p : Page) (body : String) (fps : List String) :
    fingerprintLoop link p body fps =
      (true, { p with Tags := p.Tags ++
        (if fps.any (fun fingerprint => contains body fingerprint)
          then [⟨"Domain Takeover", "danger", link⟩] else []) }) := by
  induction fps with
  | nil => simp [fingerprintLoop]
  | cons f rest ih =>
    by_cases h : contains body f = true
    · simp [fingerprintLoop, h, Page.AddTag]
    · simp [fingerprintLoop, h, ih]

theorem githubAddrLoop_eq (p : Page) (body githubAddr : String) (addrs : List String) :
    githubAddrLoop p body githubAddr addrs =
      if addrDetected addrs githubAddr then
        some (fingerprintLoop
          "https://help.github.com/articles/using-a-custom-domain-with-github-pages/"
          p body githubFingerprints)
      else none := by
  induction addrs with
  | nil => simp [githubAddrLoop, addrDetected]
  | cons a rest ih =>
    by_cases h : a = githubAddr
    · simp [githubAddrLoop, addrDetected, h]
    · simp only [addrDetected] at ih
      simp [githubAddrLoop, addrDetected, h, ih]

theorem githubLoop_eq (p : Page) (addrs : List String) (body : String) (gs : List String) :
    githubLoop p addrs body gs =
      if gs.any (fun githubAddr => addrDetected addrs githubAddr) then
        fingerprintLoop
          "https://help.github.com/articles/using-a-custom-domain-with-github-pages/"
          p body githubFingerprints
      else (false, p) := by
  induction gs with
  | nil => simp [githubLoop]
  | cons g rest ih =>
    by_cases h : addrDetected addrs g = true
    · simp [githubLoop, githubAddrLoop_eq, h]
    · simp [githubLoop, githubAddrLoop_eq, h, ih]

theorem detectGithubPages_eq (p : Page) (addrs : List String) (cname body : String) :
    detectGithubPages p addrs body = providerStep .GithubPages p addrs cname body := by
  simp only [detectGithubPages, githubLoop_eq, fingerprintLoop_eq, providerStep, identified,
    providerStops, providerTags, infoTag, vulnerable, fingerprints, takeoverLink]
  simp

theorem detectAmazonS3_eq (p : Page) (addrs : List String) (cname body : String) :
    detectAmazonS3 p cname body = providerStep .AmazonS3 p addrs cname body := by
  simp only [detectAmazonS3, fingerprintLoop_eq, providerStep, identified,
    providerStops, providerTags, infoTag, vulnerable, fingerprints, takeoverLink]
  by_cases h : hasSuffix cname ".amazonaws.com." = true <;> simp [h]

theorem detectCampaignMonitor_eq (p : Page) (addrs : List String) (cname body : String) :
    detectCampaignMonitor p cname body = providerStep .CampaignMonitor p addrs cname body := by
  simp only [detectCampaignMonitor, providerStep, identified,
    providerStops, providerTags, infoTag, vulnerable, fingerprints, takeoverLink, Page.AddTag]
  by_cases h : cname = "cname.createsend.com." <;>
    by_cases h2 : contains body "Double check the URL or " = true <;> simp [h, h2]

theorem detectCargoCollective_eq (p : Page) (addrs : List String) (cname body : String) :
    detectCargoCollective p cname body = providerStep .CargoCollective p addrs cname body := by
  simp only [detectCargoCollective, providerStep, identified,
    providerStops, providerTags, infoTag, vulnerable, fingerprints, takeoverLink, Page.AddTag]
  by_cases h : cname = "subdomain.cargocollective.com." <;>
    by_cases h2 : contains body "404 Not Found" = true <;> simp [h, h2]

theorem detectFeedPress_eq (p : Page) (addrs : List String) (cname body : String) :
    detectFeedPress p cname body = providerStep .FeedPress p addrs cname body := by
  simp only [detectFeedPress, providerStep, identified,
    providerStops, providerTags, infoTag, vulnerable, fingerprints, takeoverLink, Page.AddTag]
  by_cases h : cname = "redirect.feedpress.me." <;>
    by_cases h2 : contains body "The feed has not been found." = true <;> simp [h, h2]

theorem detectGhost_eq (p : Page) (addrs : List String) (cname body : String) :
    detectGhost p cname body = providerStep .Ghost p addrs cname body := by
  simp only [detectGhost, providerStep, identified,
    providerStops, providerTags, infoTag, vulnerable, fingerprints, takeoverLink, Page.AddTag]
  by_cases h : hasSuffix cname ".ghost.io." = true <;>
    by_cases h2 : contains body "The thing you were looking for is no longer here, or never was" = true <;> simp [h, h2]

theorem detectHelpjuice_eq (p : Page) (addrs : List String) (cname body : String) :
    detectHelpjuice p cname body = providerStep .Helpjuice p addrs cname body := by
  simp only [detectHelpjuice, providerStep, identified,
    providerStops, providerTags, infoTag, vulnerable, fingerprints, takeoverLink, Page.AddTag]
  by_cases h : hasSuffix cname ".helpjuice.com." = true <;>
    by_cases h2 : contains body "We could not find what you're looking for." = true <;> simp [h, h2]

theorem detectHelpScout_eq (p : Page) (addrs : List String) (cname body : String) :
    detectHelpScout p cname body = providerStep .HelpScout p addrs cname body := by
  simp only [detectHelpScout, providerStep, identified,
    providerStops, providerTags, infoTag, vulnerable, fingerprints, takeoverLink, Page.AddTag]
  by_cases h : hasSuffix cname ".helpscoutdocs.com." = true <;>
    by_cases h2 : contains body "No settings were found for this company:" = true <;> simp [h, h2]

theorem detectJetBrains_eq (p : Page) (addrs : List String) (cname body : String) :
    detectJetBrains p cname body = providerStep .JetBrains p addrs cname body := by
  simp only [detectJetBrains, providerStep, identified,
    providerStops, providerTags, infoTag, vulnerable, fingerprints, takeoverLink, Page.AddTag]
  by_cases h : hasSuffix cname ".myjetbrains.com." = true <;>
    by_cases h2 : contains body "is not a registered InCloud YouTrack" = true <;> simp [h, h2]

theorem detectMicrosoftAzure_eq (p : Page) (addrs : List String) (cname body : String) :
    detectMicrosoftAzure p cname body = providerStep .MicrosoftAzure p addrs cname body := by
  simp only [detectMicrosoftAzure, providerStep, identified,
    providerStops, providerTags, infoTag, vulnerable, fingerprints, takeoverLink, Page.AddTag]
  by_cases h : hasSuffix cname ".azurewebsites.net." = true <;>
    by_cases h2 : contains body "404 Web Site not found" = true <;> simp [h, h2]

theorem detectUserVoice_eq (p : Page) (addrs : List String) (cname body : String) :
    detectUserVoice p cname body = providerStep .UserVoice p addrs cname body := by
  simp only [detectUserVoice, providerStep, identified,
    providerStops, providerTags, infoTag, vulnerable, fingerprints, takeoverLink, Page.AddTag]
  by_cases h : hasSuffix cname ".uservoice.com." = true <;>
    by_cases h2 : contains body "This UserVoice subdomain is currently available!" = true <;> simp [h, h2]

theorem detectWordpress_eq (p : Page) (addrs : List String) (cname body : String) :
    detectWordpress p cname body = providerStep .Wordpress p addrs cname body := by
  simp only [detectWordpress, providerStep, identified,
    providerStops, providerTags, infoTag, vulnerable, fingerprints, takeoverLink, Page.AddTag]
  by_cases h : hasSuffix cname ".wordpress.com." = true <;>
    by_cases h2 : contains body "Do you want to register" = true <;> simp [h, h2]

theorem detectUptimeRobot_eq (p : Page) (addrs : List String) (cname body : String) :
    detectUptimeRobot p cname body = providerStep .UptimeRobot p addrs cname body := by
  simp only [detectUptimeRobot, providerStep, identified,
    providerStops, providerTags, infoTag, vulnerable, fingerprints, takeoverLink, Page.AddTag]
  by_cases h : cname = "stats.uptimerobot.com." <;>
    by_cases h2 : contains body "This public status page <b>does not seem to exist</b>." = true <;> simp [h, h2]

theorem detectPantheon_eq (p : Page) (addrs : List String) (cname body : String) :
    detectPantheon p cname body = providerStep .Pantheon p addrs cname body := by
  simp only [detectPantheon, providerStep, identified,
    providerStops, providerTags, infoTag, vulnerable, fingerprints, takeoverLink, Page.AddTag]
  by_cases h : hasSuffix cname ".pantheonsite.io." = true <;>
    by_cases h2 : contains body "The gods are wise" = true <;> simp [h, h2]

theorem detectSmugMug_eq (p : Page) (addrs : List String) (cname body : String) :
    detectSmugMug p cname body = providerStep .SmugMug p addrs cname body := by
  simp only [detectSmugMug, providerStep, identified,
    providerStops, providerTags, infoTag, vulnerable, fingerprints, takeoverLink, Page.AddTag]
  by_cases h : cname = "domains.smugmug.com." <;>
    by_cases h2 : body = "" <;> simp [h, h2]

theorem detectSurge_eq (p : Page) (addrs : List String) (cname body : String) :
    detectSurge p addrs cname body = providerStep .Surge p addrs cname body := by
  simp only [detectSurge, providerStep, identified,
    providerStops, providerTags, infoTag, vulnerable, fingerprints, takeoverLink, Page.AddTag]
  by_cases h : cname = "na-west1.surge.sh." <;>
    by_cases h1 : addrDetected addrs "45.55.110.124" = true <;>
    by_cases h2 : contains body "project not found" = true <;> simp [h, h1, h2]

theorem detectTumblr_eq (p : Page) (addrs : List String) (cname body : String) :
    detectTumblr p addrs cname body = providerStep .Tumblr p addrs cname body := by
  simp only [detectTumblr, providerStep, identified,
    providerStops, providerTags, infoTag, vulnerable, fingerprints, takeoverLink, Page.AddTag]
  by_cases h : cname = "domains.tumblr.com." <;>
    by_cases h1 : addrDetected addrs "66.6.44.4" = true <;>
    by_cases h2 : contains body "Whatever you were looking for doesn't currently exist at this address" = true <;> simp [h, h1, h2]

theorem detectStrikingly_eq (p : Page) (addrs : List String) (cname body : String) :
    detectStrikingly p addrs cname body = providerStep .Strikingly p addrs cname body := by
  simp only [detectStrikingly, providerStep, identified,
    providerStops, providerTags, infoTag, vulnerable, fingerprints, takeoverLink, Page.AddTag]
  by_cases h : hasSuffix cname ".s.strikinglydns.com." = true <;>
    by_cases h1 : addrDetected addrs "54.183.102.22" = true <;>
    by_cases h2 : contains body "But if you're looking to build your own website," = true <;> simp [h, h1, h2]

theorem herokuLoop_eq (p : Page) (cname body : String) (cs : List String) :
    herokuLoop p cname body cs =
      if cs.any (fun c => hasSuffix cname c) then
        (true, { p with Tags := p.Tags ++ providerTags .Heroku body })
      else (false, p) := by
  induction cs with
  | nil => simp [herokuLoop]
  | cons c rest ih =>
    simp only [providerTags, infoTag, vulnerable, fingerprints, takeoverLink] at ih ⊢
    by_cases h : hasSuffix cname c = true <;>
      by_cases h2 : contains body "No such app" = true <;>
      simp [herokuLoop, Page.AddTag, h, h2, ih]

theorem detectHeroku_eq (p : Page) (addrs : List String) (cname body : String) :
    detectHeroku p cname body = providerStep .Heroku p addrs cname body := by
  simp only [detectHeroku, herokuLoop_eq, providerStep, identified, providerStops]

theorem readmeLoop_eq (p : Page) (cname body : String) (cs : List String) :
    readmeLoop p cname body cs =
      if cs.any (fun c => hasSuffix cname c) then
        (true, { p with Tags := p.Tags ++ providerTags .Readme body })
      else (false, p) := by
  induction cs with
  | nil => simp [readmeLoop]
  | cons c rest ih =>
    simp only [providerTags, infoTag, vulnerable, fingerprints, takeoverLink] at ih ⊢
    by_cases h : hasSuffix cname c = true <;>
      by_cases h2 : contains body "Project doesnt exist... yet!" = true <;>
      simp [readmeLoop, Page.AddTag, h, h2, ih]

theorem detectReadme_eq (p : Page) (addrs : List String) (cname body : String) :
    detectReadme p cname body = providerStep .Readme p addrs cname body := by
  simp only [detectReadme, readmeLoop_eq, providerStep, identified, providerStops]

/-- The chain of `runDetectorFunctions` is the chain over the provider table. -/
theorem detectorChain_eq (page : Page) (addrs : List String) (cname body : String) :
    detectorChain page addrs cname body = chainFrom page addrs cname body providers := by
  simp only [detectorChain, providers, chainFrom,
    detectGithubPages_eq page addrs cname body, detectAmazonS3_eq _ addrs,
    detectCampaignMonitor_eq _ addrs, detectCargoCollective_eq _ addrs,
    detectFeedPress_eq _ addrs, detectGhost_eq _ addrs, detectHelpjuice_eq _ addrs,
    detectHelpScout_eq _ addrs, detectHeroku_eq _ addrs, detectJetBrains_eq _ addrs,
    detectMicrosoftAzure_eq _ addrs, detectReadme_eq _ addrs, detectSurge_eq,
    detectTumblr_eq, detectUserVoice_eq _ addrs, detectWordpress_eq _ addrs,
    detectSmugMug_eq _ addrs, detectStrikingly_eq, detectUptimeRobot_eq _ addrs,
    detectPantheon_eq _ addrs, ite_self]

/-! ### The chain over the provider table -/

theorem chainFrom_none (p : Page) (addrs : List String) (cname body : String)
    (l : List Provider) (h : l.find? (fun pr => identified pr addrs cname) = none) :
    chainFrom p addrs cname body l = p := by
  induction l with
  | nil => rfl
  | cons pr rest ih =>
    rw [List.find?_cons] at h
    cases hid : identified pr addrs cname with
    | true => simp [hid] at h
    | false =>
      simp only [hid] at h
      simp [chainFrom, providerStep, hid, ih h]

theorem chainFrom_first (p : Page) (addrs : List String) (cname body : String)
    (l : List Provider) (pr : Provider)
    (h : l.find? (fun pr => identified pr addrs cname) = some pr)
    (hs : providerStops pr body = true) :
    chainFrom p addrs cname body l = { p with Tags := p.Tags ++ providerTags pr body } := by
  induction l with
  | nil => simp at h
  | cons q rest ih =>
    rw [List.find?_cons] at h
    cases hid : identified q addrs cname with
    | true =>
      simp only [hid, Option.some.injEq] at h
      subst h
      simp [chainFrom, providerStep, hid, hs]
    | false =>
      simp only [hid] at h
      simp [chainFrom, providerStep, hid, ih h]

theorem addedTags_append (p : Page) (l : List Tag) :
    addedTags p { p with Tags := p.Tags ++ l } = l := by
  simp [addedTags]

theorem addedTags_self (p : Page) : addedTags p p = [] := by
  simp [addedTags]

theorem infoTag_text_ne (pr : Provider) (t : Tag) (h : infoTag pr = some t) :
    t.Text ≠ "Domain Takeover" := by
  cases pr <;> simp [infoTag] at h <;> subst h <;> decide

theorem takeover_mem_providerTags (pr : Provider) (body : String) (t : Tag) :
    (t ∈ providerTags pr body ∧ t.Text = "Domain Takeover") ↔
      (vulnerable pr body = true ∧ t = ⟨"Domain Takeover", "danger", takeoverLink pr⟩) := by
  constructor
  · rintro ⟨hmem, htext⟩
    simp only [providerTags, List.mem_append, Option.mem_toList, Option.mem_def] at hmem
    rcases hmem with h | h
    · exact absurd htext (infoTag_text_ne pr t h)
    · by_cases hv : vulnerable pr body = true
      · simp [hv] at h
        exact ⟨hv, h⟩
      · simp [hv] at h
  · rintro ⟨hv, rfl⟩
    simp [providerTags, hv]

/-! ### Takeover detector: the claims -/

/-- C1 (the code at the failing input): with the CNAME `acme.helpjuice.com.`, the resolved
address `45.55.110.124` and a body without the Helpjuice fingerprint, Helpjuice is the first
provider identified, and the chain still goes on to Surge: the run adds the informational tags
of two providers. -/
theorem helpjuice_identified_chain_continues_to_surge :
    firstIdentified ["45.55.110.124"] "acme.helpjuice.com." = some Provider.Helpjuice ∧
    addedTags (emptyPage "http://kb.example.com/")
      (detectorChain (emptyPage "http://kb.example.com/") ["45.55.110.124"]
        "acme.helpjuice.com." "<html>Welcome</html>") =
      [⟨"Helpjuice", "info", "https://helpjuice.com/"⟩,
       ⟨"Surge", "info", "https://surge.sh/"⟩] := by
  decide

/-- C2 (the code at the failing input): with the CNAME `bucket.s3.amazonaws.com.` and no
resolved address, a body containing `NoSuchBucket` gets the "Domain Takeover" tag alone, and a
body with neither fingerprint gets no tag at all: no "Amazon S3" tag is added. -/
theorem amazon_s3_adds_no_provider_tag :
    addedTags (emptyPage "http://files.example.com/")
      (detectorChain (emptyPage "http://files.example.com/") []
        "bucket.s3.amazonaws.com." "<Error><Code>NoSuchBucket</Code></Error>") =
      [⟨"Domain Takeover", "danger",
        "https://docs.aws.amazon.com/AmazonS3/latest/dev/website-hosting-custom-domain-walkthrough.html"⟩] ∧
    addedTags (emptyPage "http://files.example.com/")
      (detectorChain (emptyPage "http://files.example.com/") []
        "bucket.s3.amazonaws.com." "<html>Welcome</html>") = [] := by
  decide

/-- C3 (the code at the failing inputs): for each of GitHub Pages, Amazon S3, Ghost, Tumblr
and Wordpress there is an input on which it is the first provider identified and the run adds
no tag, so no tag with the provider's name. -/
theorem five_providers_add_no_info_tag :
    (firstIdentified ["185.199.108.153"] "example.github.io." = some Provider.GithubPages ∧
      addedTags (emptyPage "http://www.example.com/")
        (detectorChain (emptyPage "http://www.example.com/") ["185.199.108.153"]
          "example.github.io." "<html>Welcome</html>") = []) ∧
    (firstIdentified [] "bucket.s3.amazonaws.com." = some Provider.AmazonS3 ∧
      addedTags (emptyPage "http://www.example.com/")
        (detectorChain (emptyPage "http://www.example.com/") []
          "bucket.s3.amazonaws.com." "<html>Welcome</html>") = []) ∧
    (firstIdentified [] "blog.ghost.io." = some Provider.Ghost ∧
      addedTags (emptyPage "http://www.example.com/")
        (detectorChain (emptyPage "http://www.example.com/") []
          "blog.ghost.io." "<html>Welcome</html>") = []) ∧
    (firstIdentified [] "domains.tumblr.com." = some Provider.Tumblr ∧
      addedTags (emptyPage "http://www.example.com/")
        (detectorChain (emptyPage "http://www.example.com/") []
          "domains.tumblr.com." "<html>Welcome</html>") = []) ∧
    (firstIdentified [] "example.wordpress.com." = some Provider.Wordpress ∧
      addedTags (emptyPage "http://www.example.com/")
        (detectorChain (emptyPage "http://www.example.com/") []
          "example.wordpress.com." "<html>Welcome</html>") = []) := by
  decide

/-- C4 (counterexample): with the CNAME `domains.smugmug.com.` SmugMug is the first provider
identified; on the empty body the run adds a "Domain Takeover" tag although the body contains
no fingerprint string of SmugMug (its detector has none), and on the body `x`, which contains
the empty string, it adds none. -/
theorem smugmug_takeover_tag_is_not_a_fingerprint_match :
    ¬ ((∃ t ∈ addedTags (emptyPage "http://photos.example.com/")
          (detectorChain (emptyPage "http://photos.example.com/") []
            "domains.smugmug.com." ""), t.Text = "Domain Takeover") ↔
        ∃ pr, firstIdentified [] "domains.smugmug.com." = some pr ∧
          ∃ fingerprint ∈ fingerprints pr, contains "" fingerprint = true) ∧
    (contains "x" "" = true ∧
      ¬ ∃ t ∈ addedTags (emptyPage "http://photos.example.com/")
          (detectorChain (emptyPage "http://photos.example.com/") []
            "domains.smugmug.com." "x"), t.Text = "Domain Takeover") := by
  refine ⟨?_, by decide⟩
  intro h
  obtain ⟨pr, hpr, fp, hfp, _⟩ := h.mp (by decide)
  have hfirst : firstIdentified [] "domains.smugmug.com." = some Provider.SmugMug := by decide
  rw [hfirst] at hpr
  cases hpr
  simp [fingerprints] at hfp

/-- C4 (amended): unless Helpjuice is the first provider identified and the body lacks its
fingerprint, the run adds a "Domain Takeover" tag if and only if the body check of the first
provider identified succeeds (the body contains one of its fingerprint strings, and for SmugMug
the body is empty); a "Domain Takeover" tag that is added has severity "danger" and the
remediation link of that provider. -/
theorem takeover_tag_iff_first_provider_body_check (page : Page) (addrs : List String)
    (cname body : String)
    (h : ¬ (firstIdentified addrs cname = some Provider.Helpjuice ∧
      vulnerable Provider.Helpjuice body = false)) :
    ((∃ t ∈ addedTags page (detectorChain page addrs cname body), t.Text = "Domain Takeover") ↔
      ∃ pr, firstIdentified addrs cname = some pr ∧ vulnerable pr body = true) ∧
    (∀ t ∈ addedTags page (detectorChain page addrs cname body), t.Text = "Domain Takeover" →
      t.TagType = "danger" ∧
        ∃ pr, firstIdentified addrs cname = some pr ∧ t.Link = takeoverLink pr) := by
  rw [detectorChain_eq]
  cases hfirst : firstIdentified addrs cname with
  | none =>
    rw [chainFrom_none page addrs cname body providers hfirst, addedTags_self]
    simp
  | some pr =>
    have hs : providerStops pr body = true := by
      cases pr <;> simp only [providerStops]
      rw [hfirst] at h
      simpa using h
    rw [chainFrom_first page addrs cname body providers pr hfirst hs, addedTags_append]
    constructor
    · constructor
      · rintro ⟨t, hmem, htext⟩
        exact ⟨pr, rfl, ((takeover_mem_providerTags pr body t).mp ⟨hmem, htext⟩).1⟩
      · rintro ⟨q, hq, hv⟩
        have hq2 : pr = q := Option.some.inj hq
        subst hq2
        exact ⟨⟨"Domain Takeover", "danger", takeoverLink pr⟩,
          ((takeover_mem_providerTags pr body _).mpr ⟨hv, rfl⟩).1, rfl⟩
    · intro t hmem htext
      obtain ⟨_, rfl⟩ := (takeover_mem_providerTags pr body t).mp ⟨hmem, htext⟩
      exact ⟨rfl, pr, rfl, rfl⟩

/-- Witness of `takeover_tag_iff_first_provider_body_check` on an Amazon S3 record. -/
theorem takeover_tag_iff_first_provider_body_check_witness :
    ¬ (firstIdentified [] "bucket.s3.amazonaws.com." = some Provider.Helpjuice ∧
      vulnerable Provider.Helpjuice "<Code>NoSuchBucket</Code>" = false) ∧
    (((∃ t ∈ addedTags (emptyPage "http://files.example.com/")
          (detectorChain (emptyPage "http://files.example.com/") []
            "bucket.s3.amazonaws.com." "<Code>NoSuchBucket</Code>"),
          t.Text = "Domain Takeover") ↔
      ∃ pr, firstIdentified [] "bucket.s3.amazonaws.com." = some pr ∧
        vulnerable pr "<Code>NoSuchBucket</Code>" = true) ∧
    (∀ t ∈ addedTags (emptyPage "http://files.example.com/")
          (detectorChain (emptyPage "http://files.example.com/") []
            "bucket.s3.amazonaws.com." "<Code>NoSuchBucket</Code>"),
        t.Text = "Domain Takeover" →
      t.TagType = "danger" ∧
        ∃ pr, firstIdentified [] "bucket.s3.amazonaws.com." = some pr ∧
          t.Link = takeoverLink pr)) :=
  ⟨by decide,
    takeover_tag_iff_first_provider_body_check (emptyPage "http://files.example.com/") []
      "bucket.s3.amazonaws.com." "<Code>NoSuchBucket</Code>" (by decide)⟩

/-- C9: for a record in the store whose host is an IP literal, the takeover detector's
`OnURLResponsive` performs no effect (no lookup, no read, no unit of work) and leaves the
session, and with it the record and its tags, unchanged. -/
theorem ip_host_skips_takeover_detection (w : World) (s : Session) (u : String) (page : Page)
    (hpage : s.GetPage u = some page) (hip : w.IsIPHost page = true) :
    (URLTakeoverDetector.OnURLResponsive w s u).1 = [] ∧
    (URLTakeoverDetector.OnURLResponsive w s u).2 = s ∧
    ((URLTakeoverDetector.OnURLResponsive w s u).2.GetPage u).map Page.Tags =
      some page.Tags := by
  simp [URLTakeoverDetector.OnURLResponsive, hpage, hip]

/-- Witness of `ip_host_skips_takeover_detection` on a store with one record. -/
theorem ip_host_skips_takeover_detection_witness :
    (Session.GetPage ⟨[("http://10.0.0.1/", emptyPage "http://10.0.0.1/")]⟩ "http://10.0.0.1/" =
        some (emptyPage "http://10.0.0.1/") ∧
      ipLiteralWorld.IsIPHost (emptyPage "http://10.0.0.1/") = true) ∧
    ((URLTakeoverDetector.OnURLResponsive ipLiteralWorld
        ⟨[("http://10.0.0.1/", emptyPage "http://10.0.0.1/")]⟩ "http://10.0.0.1/").1 = [] ∧
    (URLTakeoverDetector.OnURLResponsive ipLiteralWorld
        ⟨[("http://10.0.0.1/", emptyPage "http://10.0.0.1/")]⟩ "http://10.0.0.1/").2 =
      ⟨[("http://10.0.0.1/", emptyPage "http://10.0.0.1/")]⟩ ∧
    ((URLTakeoverDetector.OnURLResponsive ipLiteralWorld
        ⟨[("http://10.0.0.1/", emptyPage "http://10.0.0.1/")]⟩
        "http://10.0.0.1/").2.GetPage "http://10.0.0.1/").map Page.Tags =
      some (emptyPage "http://10.0.0.1/").Tags) :=
  ⟨⟨by decide, rfl⟩,
    ip_host_skips_takeover_detection ipLiteralWorld
      ⟨[("http://10.0.0.1/", emptyPage "http://10.0.0.1/")]⟩ "http://10.0.0.1/"
      (emptyPage "http://10.0.0.1/") (by decide) rfl⟩

/-- C10: when the address lookup, the CNAME lookup or the read of the stored body fails,
`runDetectorFunctions` returns the record as it was: no tag is added. -/
theorem failed_prerequisite_adds_no_tag (w : World) (page : Page)
    (hfail : w.LookupHost (w.Hostname page ++ ".") = none ∨
      w.LookupCNAME (w.Hostname page ++ ".") = none ∨
      w.ReadFile ("html/" ++ w.BaseFilename page ++ ".html") = none) :
    (runDetectorFunctions w page).2 = page ∧
    addedTags page (runDetectorFunctions w page).2 = [] := by
  have hpage : (runDetectorFunctions w page).2 = page := by
    cases h1 : w.LookupHost (w.Hostname page ++ ".") with
    | none => simp [runDetectorFunctions, h1]
    | some addrs =>
      cases h2 : w.LookupCNAME (w.Hostname page ++ ".") with
      | none => simp [runDetectorFunctions, h1, h2]
      | some cname =>
        cases h3 : w.ReadFile ("html/" ++ w.BaseFilename page ++ ".html") with
        | none => simp [runDetectorFunctions, h1, h2, h3]
        | some body => simp [h1, h2, h3] at hfail
  rw [hpage]
  exact ⟨rfl, addedTags_self page⟩

/-- Witness of `failed_prerequisite_adds_no_tag` in an environment where no name resolves. -/
theorem failed_prerequisite_adds_no_tag_witness :
    (offlineWorld.LookupHost
        (offlineWorld.Hostname (emptyPage "http://www.example.com/") ++ ".") = none ∨
      offlineWorld.LookupCNAME
        (offlineWorld.Hostname (emptyPage "http://www.example.com/") ++ ".") = none ∨
      offlineWorld.ReadFile
        ("html/" ++ offlineWorld.BaseFilename (emptyPage "http://www.example.com/") ++ ".html") =
        none) ∧
    ((runDetectorFunctions offlineWorld (emptyPage "http://www.example.com/")).2 =
        emptyPage "http://www.example.com/" ∧
      addedTags (emptyPage "http://www.example.com/")
        (runDetectorFunctions offlineWorld (emptyPage "http://www.example.com/")).2 = []) :=
  ⟨Or.inl rfl,
    failed_prerequisite_adds_no_tag offlineWorld (emptyPage "http://www.example.com/")
      (Or.inl rfl)⟩

/-! ### Technology fingerprinter: what the loops of a pass keep true -/

theorem PassInv.refl (fps : List Fingerprint) (seen : List String) (page : Page) :
    PassInv fps seen page (seen, page) :=
  ⟨[], by simp, by simp, by simp, fun _ h => h, fun n h hn => absurd h hn⟩

theorem PassInv.trans {fps : List Fingerprint} {seen : List String} {page : Page}
    {r1 r2 : List String × Page} (h1 : PassInv fps seen page r1)
    (h2 : PassInv fps r1.1 r1.2 r2) : PassInv fps seen page r2 := by
  obtain ⟨l1, e1, nd1, a1, m1, t1⟩ := h1
  obtain ⟨l2, e2, nd2, a2, m2, t2⟩ := h2
  refine ⟨l1 ++ l2, ?_, ?_, ?_, ?_, ?_⟩
  · rw [e2, e1, List.append_assoc]
  · rw [List.map_append, List.nodup_append]
    refine ⟨nd1, nd2, ?_⟩
    intro n hn1 hn2
    obtain ⟨t, ht, rfl⟩ := List.mem_map.mp hn1
    obtain ⟨u, hu, hut⟩ := List.mem_map.mp hn2
    exact (a2 u hu).2.1 (hut ▸ (a1 t ht).1)
  · intro t ht
    rcases List.mem_append.mp ht with h | h
    · exact ⟨m2 _ (a1 t h).1, (a1 t h).2.1, (a1 t h).2.2⟩
    · exact ⟨(a2 t h).1, fun hs => (a2 t h).2.1 (m1 _ hs), (a2 t h).2.2⟩
  · exact fun n hn => m2 n (m1 n hn)
  · intro n hn hns hex
    by_cases hr : n ∈ r1.1
    · obtain ⟨t, ht, htn⟩ := t1 n hr hns hex
      exact ⟨t, List.mem_append_left _ ht, htn⟩
    · obtain ⟨t, ht, htn⟩ := t2 n hn hr hex
      exact ⟨t, List.mem_append_right _ ht, htn⟩

theorem lookupLoop_tags (page : Page) (implName : String) (fps : List Fingerprint) :
    ((lookupLoop page implName fps).Tags = page.Tags ∧ ¬ ∃ f ∈ fps, f.Name = implName) ∨
    ∃ website, (lookupLoop page implName fps).Tags =
      page.Tags ++ [⟨implName, "info", website⟩] := by
  induction fps with
  | nil => left; simp [lookupLoop]
  | cons f rest ih =>
    by_cases h : implName = f.Name
    · right
      exact ⟨f.Website, by simp [lookupLoop, h, Page.AddTag]⟩
    · rcases ih with ⟨e, hn⟩ | ⟨website, e⟩
      · left
        refine ⟨by simp [lookupLoop, h, e], ?_⟩
        rintro ⟨g, hg, hgn⟩
        rcases List.mem_cons.mp hg with rfl | hg
        · exact h hgn.symm
        · exact hn ⟨g, hg, hgn⟩
      · right
        exact ⟨website, by simp [lookupLoop, h, e]⟩

theorem PassInv.lookup (fps : List Fingerprint) (seen : List String) (page : Page)
    (impl : String) (h : impl ∉ seen) :
    PassInv fps seen page (impl :: seen, lookupLoop page impl fps) := by
  rcases lookupLoop_tags page impl fps with ⟨e, hne⟩ | ⟨website, e⟩
  · refine ⟨[], by simp [e], by simp, by simp, fun n hn => List.mem_cons_of_mem _ hn, ?_⟩
    intro n hn hns hex
    rcases List.mem_cons.mp hn with rfl | hn
    · exact absurd hex hne
    · exact absurd hn hns
  · refine ⟨[⟨impl, "info", website⟩], e, by simp, ?_,
      fun n hn => List.mem_cons_of_mem _ hn, ?_⟩
    · intro t ht
      rw [List.mem_singleton] at ht
      subst ht
      exact ⟨List.mem_cons_self _ _, h, rfl⟩
    · intro n hn hns _
      rcases List.mem_cons.mp hn with rfl | hn
      · exact ⟨_, List.mem_singleton.mpr rfl, rfl⟩
      · exact absurd hn hns

theorem PassInv.direct (fps : List Fingerprint) (seen : List String) (page : Page)
    (f : Fingerprint) (h : f.Name ∉ seen) :
    PassInv fps seen page (f.Name :: seen, page.AddTag f.Name "info" f.Website) := by
  refine ⟨[⟨f.Name, "info", f.Website⟩], rfl, by simp, ?_,
    fun n hn => List.mem_cons_of_mem _ hn, ?_⟩
  · intro t ht
    rw [List.mem_singleton] at ht
    subst ht
    exact ⟨List.mem_cons_self _ _, h, rfl⟩
  · intro n hn hns _
    rcases List.mem_cons.mp hn with rfl | hn
    · exact ⟨_, List.mem_singleton.mpr rfl, rfl⟩
    · exact absurd hn hns

theorem impliesLoop_inv (fps : List Fingerprint) (impls : List String) :
    ∀ (seen : List String) (page : Page),
      PassInv fps seen page (impliesLoop fps seen page impls) := by
  induction impls with
  | nil => intro seen page; exact PassInv.refl fps seen page
  | cons impl rest ih =>
    intro seen page
    by_cases h : impl ∈ seen
    · simpa [impliesLoop, h] using ih seen page
    · have := PassInv.trans (PassInv.lookup fps seen page impl h)
        (ih (impl :: seen) (lookupLoop page impl fps))
      simpa [impliesLoop, h] using this

theorem impliesLoop_mem (fps : List Fingerprint) (impls : List String) :
    ∀ (seen : List String) (page : Page),
      ∀ n ∈ impls, n ∈ (impliesLoop fps seen page impls).1 := by
  induction impls with
  | nil => intro seen page n hn; simp at hn
  | cons impl rest ih =>
    intro seen page n hn
    by_cases h : impl ∈ seen
    · simp only [impliesLoop, h, if_true]
      rcases List.mem_cons.mp hn with rfl | hn
      · obtain ⟨_, _, _, _, m, _⟩ := impliesLoop_inv fps rest seen page
        exact m _ h
      · exact ih seen page n hn
    · simp only [impliesLoop, h, if_false]
      rcases List.mem_cons.mp hn with rfl | hn
      · obtain ⟨_, _, _, _, m, _⟩ :=
          impliesLoop_inv fps rest (n :: seen) (lookupLoop page n fps)
        exact m _ (List.mem_cons_self _ _)
      · exact ih _ _ n hn

theorem tagLoop_inv (fps : List Fingerprint) (matched : List Fingerprint) :
    ∀ (seen : List String) (page : Page),
      PassInv fps seen page (tagLoop fps seen page matched) := by
  induction matched with
  | nil => intro seen page; exact PassInv.refl fps seen page
  | cons f rest ih =>
    intro seen page
    by_cases h : f.Name ∈ seen
    · simpa [tagLoop, h] using ih seen page
    · have := PassInv.trans
        (PassInv.trans (PassInv.direct fps seen page f h)
          (impliesLoop_inv fps f.Implies (f.Name :: seen)
            (page.AddTag f.Name "info" f.Website)))
        (ih _ _)
      simpa [tagLoop, h] using this

theorem addedTags_of_tags_eq (page page2 : Page) (l : List Tag)
    (h : page2.Tags = page.Tags ++ l) : addedTags page page2 = l := by
  simp [addedTags, h]

theorem tagLoop_mem (fps : List Fingerprint) (matched : List Fingerprint) :
    ∀ (seen : List String) (page : Page),
      ∀ f ∈ matched, f.Name ∈ (tagLoop fps seen page matched).1 := by
  induction matched with
  | nil => intro seen page f hf; simp at hf
  | cons g rest ih =>
    intro seen page f hf
    by_cases h : g.Name ∈ seen
    · simp only [tagLoop, h, if_true]
      rcases List.mem_cons.mp hf with rfl | hf
      · obtain ⟨_, _, _, _, m, _⟩ := tagLoop_inv fps rest seen page
        exact m _ h
      · exact ih seen page f hf
    · simp only [tagLoop, h, if_false]
      rcases List.mem_cons.mp hf with rfl | hf
      · obtain ⟨_, _, _, _, m1, _⟩ := impliesLoop_inv fps f.Implies (f.Name :: seen)
          (page.AddTag f.Name "info" f.Website)
        obtain ⟨_, _, _, _, m2, _⟩ := tagLoop_inv fps rest
          (impliesLoop fps (f.Name :: seen) (page.AddTag f.Name "info" f.Website) f.Implies).1
          (impliesLoop fps (f.Name :: seen) (page.AddTag f.Name "info" f.Website) f.Implies).2
        exact m2 _ (m1 _ (List.mem_cons_self _ _))
      · exact ih _ _ f hf

theorem fingerprintHeaders_subset (uf : URLTechnologyFingerprinter) (page : Page) :
    ∀ f ∈ uf.fingerprintHeaders page, f ∈ uf.fingerprints := by
  intro f hf
  simp only [URLTechnologyFingerprinter.fingerprintHeaders, List.mem_flatMap] at hf
  obtain ⟨header, _, g, hg, entry, _, hmem⟩ := hf
  split at hmem
  · simp at hmem
  · split at hmem
    · rw [List.mem_singleton] at hmem
      exact hmem ▸ hg
    · simp at hmem

theorem fingerprintRule_eq (g : Fingerprint) (body : String) (doc : Document) :
    ∀ f ∈ fingerprintRule g body doc, f = g := by
  intro f hf
  simp only [fingerprintRule, List.mem_append, List.mem_flatMap] at hf
  rcases hf with (⟨pattern, _, hmem⟩ | ⟨pattern, _, s, _, hmem⟩) | ⟨entry, _, s, _, hmem⟩
  · split at hmem
    · exact List.mem_singleton.mp hmem
    · simp at hmem
  · split at hmem
    · split at hmem
      · exact List.mem_singleton.mp hmem
      · simp at hmem
    · simp at hmem
  · split at hmem
    · split at hmem
      · exact List.mem_singleton.mp hmem
      · simp at hmem
    · simp at hmem

theorem fingerprintBody_subset (uf : URLTechnologyFingerprinter) (w : World) (page : Page) :
    ∀ f ∈ uf.fingerprintBody w page, f ∈ uf.fingerprints := by
  intro f hf
  unfold URLTechnologyFingerprinter.fingerprintBody at hf
  split at hf
  · simp at hf
  · split at hf
    · simp at hf
    · rw [List.mem_flatMap] at hf
      obtain ⟨g, hg, hmem⟩ := hf
      exact fingerprintRule_eq g _ _ f hmem ▸ hg

theorem matched_subset (uf : URLTechnologyFingerprinter) (w : World) (page : Page) :
    ∀ f ∈ uf.matched w page, f ∈ uf.fingerprints := by
  intro f hf
  rcases List.mem_append.mp hf with h | h
  · exact fingerprintHeaders_subset uf page f h
  · exact fingerprintBody_subset uf w page f h

/-! ### Technology fingerprinter: the claims -/

/-- C5: when rule `A` of the ruleset is the only rule the pass matches directly and its
implied-rule list names a rule `B` of the ruleset, the pass adds an informational tag with the
name of `A` and one with the name of `B`. -/
theorem implied_rule_is_tagged (uf : URLTechnologyFingerprinter) (w : World) (page : Page)
    (A B : Fingerprint) (hA : A ∈ uf.fingerprints) (hB : B ∈ uf.fingerprints)
    (himplies : B.Name ∈ A.Implies) (hmatched : A ∈ uf.matched w page)
    (honly : ∀ f ∈ uf.matched w page, f = A) :
    (∃ t ∈ addedTags page (uf.fingerprintPass w page), t.Text = A.Name ∧ t.TagType = "info") ∧
    (∃ t ∈ addedTags page (uf.fingerprintPass w page), t.Text = B.Name ∧ t.TagType = "info") := by
  unfold URLTechnologyFingerprinter.fingerprintPass
  obtain ⟨l, e, _, a, _, t⟩ := tagLoop_inv uf.fingerprints (uf.matched w page) [] page
  rw [addedTags_of_tags_eq page _ l e]
  have hAseen : A.Name ∈ (tagLoop uf.fingerprints [] page (uf.matched w page)).1 :=
    tagLoop_mem uf.fingerprints (uf.matched w page) [] page A hmatched
  have hBseen : B.Name ∈ (tagLoop uf.fingerprints [] page (uf.matched w page)).1 := by
    cases hm : uf.matched w page with
    | nil => rw [hm] at hmatched; simp at hmatched
    | cons g rest =>
      have hg : g = A := honly g (by rw [hm]; exact List.mem_cons_self _ _)
      subst hg
      simp only [tagLoop, List.not_mem_nil, if_false]
      obtain ⟨_, _, _, _, m, _⟩ := tagLoop_inv uf.fingerprints rest
        (impliesLoop uf.fingerprints [g.Name] (page.AddTag g.Name "info" g.Website) g.Implies).1
        (impliesLoop uf.fingerprints [g.Name] (page.AddTag g.Name "info" g.Website) g.Implies).2
      exact m _ (impliesLoop_mem uf.fingerprints g.Implies [g.Name] _ _ himplies)
  constructor
  · obtain ⟨tag, htag, hname⟩ := t A.Name hAseen (List.not_mem_nil _) ⟨A, hA, rfl⟩
    exact ⟨tag, htag, hname, (a tag htag).2.2⟩
  · obtain ⟨tag, htag, hname⟩ := t B.Name hBseen (List.not_mem_nil _) ⟨B, hB, rfl⟩
    exact ⟨tag, htag, hname, (a tag htag).2.2⟩

/-- Witness of `implied_rule_is_tagged`: a page matching the WooCommerce rule alone. -/
theorem implied_rule_is_tagged_witness :
    (wooCommerceRule ∈ [wooCommerceRule, wordPressRule, phpRule] ∧
      wordPressRule ∈ [wooCommerceRule, wordPressRule, phpRule] ∧
      wordPressRule.Name ∈ wooCommerceRule.Implies ∧
      wooCommerceRule ∈ URLTechnologyFingerprinter.matched
        ⟨[wooCommerceRule, wordPressRule, phpRule]⟩
        (bodyWorld "<div class=\"woocommerce\"></div>") (emptyPage "http://shop.example.com/") ∧
      ∀ f ∈ URLTechnologyFingerprinter.matched ⟨[wooCommerceRule, wordPressRule, phpRule]⟩
        (bodyWorld "<div class=\"woocommerce\"></div>") (emptyPage "http://shop.example.com/"),
        f = wooCommerceRule) ∧
    ((∃ t ∈ addedTags (emptyPage "http://shop.example.com/")
        (URLTechnologyFingerprinter.fingerprintPass ⟨[wooCommerceRule, wordPressRule, phpRule]⟩
          (bodyWorld "<div class=\"woocommerce\"></div>") (emptyPage "http://shop.example.com/")),
        t.Text = wooCommerceRule.Name ∧ t.TagType = "info") ∧
    (∃ t ∈ addedTags (emptyPage "http://shop.example.com/")
        (URLTechnologyFingerprinter.fingerprintPass ⟨[wooCommerceRule, wordPressRule, phpRule]⟩
          (bodyWorld "<div class=\"woocommerce\"></div>") (emptyPage "http://shop.example.com/")),
        t.Text = wordPressRule.Name ∧ t.TagType = "info")) :=
  have hm : URLTechnologyFingerprinter.matched ⟨[wooCommerceRule, wordPressRule, phpRule]⟩
      (bodyWorld "<div class=\"woocommerce\"></div>") (emptyPage "http://shop.example.com/") =
      [wooCommerceRule] := by rfl
  have h1 : wooCommerceRule ∈ [wooCommerceRule, wordPressRule, phpRule] :=
    List.mem_cons_self _ _
  have h2 : wordPressRule ∈ [wooCommerceRule, wordPressRule, phpRule] :=
    List.mem_cons_of_mem _ (List.mem_cons_self _ _)
  have h3 : wordPressRule.Name ∈ wooCommerceRule.Implies := by decide
  have h4 : wooCommerceRule ∈ URLTechnologyFingerprinter.matched
      ⟨[wooCommerceRule, wordPressRule, phpRule]⟩
      (bodyWorld "<div class=\"woocommerce\"></div>") (emptyPage "http://shop.example.com/") := by
    rw [hm]; exact List.mem_cons_self _ _
  have h5 : ∀ f ∈ URLTechnologyFingerprinter.matched ⟨[wooCommerceRule, wordPressRule, phpRule]⟩
      (bodyWorld "<div class=\"woocommerce\"></div>") (emptyPage "http://shop.example.com/"),
      f = wooCommerceRule := by
    rw [hm]; intro f hf; exact List.mem_singleton.mp hf
  ⟨⟨h1, h2, h3, h4, h5⟩,
    implied_rule_is_tagged ⟨[wooCommerceRule, wordPressRule, phpRule]⟩
      (bodyWorld "<div class=\"woocommerce\"></div>") (emptyPage "http://shop.example.com/")
      wooCommerceRule wordPressRule h1 h2 h3 h4 h5⟩

/-- C6 (the code at the failing input): with the ruleset WooCommerce (implies WordPress),
WordPress (implies PHP), PHP and a body matching the patterns of WooCommerce and of WordPress,
both rules are matched directly, WordPress is marked as seen when WooCommerce implies it, its
own turn is skipped and PHP, which it implies and which is in the ruleset, gets no tag.  With
the two rules in the other order in the ruleset the same body does get the PHP tag. -/
theorem implied_then_matched_rule_loses_its_implied_tags :
    (URLTechnologyFingerprinter.matched ⟨[wooCommerceRule, wordPressRule, phpRule]⟩
        (bodyWorld "<link href=\"/wp-content/plugins/woocommerce/style.css\">")
        (emptyPage "http://shop.example.com/")).map Fingerprint.Name =
      ["WooCommerce", "WordPress"] ∧
    "PHP" ∈ wordPressRule.Implies ∧
    (addedTags (emptyPage "http://shop.example.com/")
      (URLTechnologyFingerprinter.fingerprintPass ⟨[wooCommerceRule, wordPressRule, phpRule]⟩
        (bodyWorld "<link href=\"/wp-content/plugins/woocommerce/style.css\">")
        (emptyPage "http://shop.example.com/"))).map Tag.Text = ["WooCommerce", "WordPress"] ∧
    (addedTags (emptyPage "http://shop.example.com/")
      (URLTechnologyFingerprinter.fingerprintPass ⟨[wordPressRule, wooCommerceRule, phpRule]⟩
        (bodyWorld "<link href=\"/wp-content/plugins/woocommerce/style.css\">")
        (emptyPage "http://shop.example.com/"))).map Tag.Text =
      ["WordPress", "PHP", "WooCommerce"] := by
  decide

/-- C7: the tags one fingerprint pass adds have pairwise different names, and every rule the
pass matches directly, however often it is matched, has exactly one tag with its name among
them. -/
theorem fingerprint_pass_adds_no_name_twice (uf : URLTechnologyFingerprinter) (w : World)
    (page : Page) :
    ((addedTags page (uf.fingerprintPass w page)).map Tag.Text).Nodup ∧
    ∀ f ∈ uf.matched w page,
      ((addedTags page (uf.fingerprintPass w page)).map Tag.Text).count f.Name = 1 := by
  unfold URLTechnologyFingerprinter.fingerprintPass
  obtain ⟨l, e, nd, _, _, t⟩ := tagLoop_inv uf.fingerprints (uf.matched w page) [] page
  rw [addedTags_of_tags_eq page _ l e]
  refine ⟨nd, ?_⟩
  intro f hf
  obtain ⟨tag, htag, hname⟩ := t f.Name
    (tagLoop_mem uf.fingerprints (uf.matched w page) [] page f hf) (List.not_mem_nil _)
    ⟨f, matched_subset uf w page f hf, rfl⟩
  exact List.count_eq_one_of_mem nd (List.mem_map.mpr ⟨tag, htag, hname⟩)

/-! ### The record store -/

theorem mapCount_of_mapGet_none {V : Type} (m : List (String × V)) (k : String)
    (h : mapGet m k = none) : mapCount m k = 0 := by
  induction m with
  | nil => rfl
  | cons e rest ih =>
    obtain ⟨k1, v1⟩ := e
    by_cases hk : k1 = k
    · simp [mapGet, hk] at h
    · simp only [mapGet, hk, if_false] at h
      have := ih h
      simp only [mapCount] at this ⊢
      simp [List.filter_cons, hk, this]

theorem mapCount_pos_of_mapGet_some {V : Type} (m : List (String × V)) (k : String) (v : V)
    (h : mapGet m k = some v) : 1 ≤ mapCount m k := by
  induction m with
  | nil => simp [mapGet] at h
  | cons e rest ih =>
    obtain ⟨k1, v1⟩ := e
    by_cases hk : k1 = k
    · simp [mapCount, List.filter_cons, hk]
    · simp only [mapGet, hk, if_false] at h
      have := ih h
      simp only [mapCount] at this ⊢
      simpa [List.filter_cons, hk] using this

theorem mapGet_mapSet {V : Type} (m : List (String × V)) (k : String) (v : V) :
    mapGet (mapSet m k v) k = some v := by
  induction m with
  | nil => simp [mapSet, mapGet]
  | cons e rest ih =>
    obtain ⟨k1, v1⟩ := e
    by_cases hk : k1 = k
    · simp [mapSet, mapGet, hk]
    · simp [mapSet, mapGet, hk, ih]

theorem mapCount_mapSet_of_mapGet_none {V : Type} (m : List (String × V)) (k : String) (v : V)
    (h : mapGet m k = none) : mapCount (mapSet m k v) k = 1 := by
  induction m with
  | nil => simp [mapSet, mapCount]
  | cons e rest ih =>
    obtain ⟨k1, v1⟩ := e
    by_cases hk : k1 = k
    · simp [mapGet, hk] at h
    · simp only [mapGet, hk, if_false] at h
      have := ih h
      simp only [mapCount] at this ⊢
      simpa [mapSet, List.filter_cons, hk] using this

/-- C8 (counterexample): on the empty store, `AddPage` with the URL `:`, which the record
constructor rejects, returns no record, and after a second call with the same URL the store
does not hold exactly one entry for it (it holds none). -/
theorem AddPage_rejected_url_has_no_entry :
    (Session.AddPage exampleNewPage ⟨[]⟩ ":").1 = none ∧
    ¬ mapCount (Session.AddPage exampleNewPage
        (Session.AddPage exampleNewPage ⟨[]⟩ ":").2 ":").2.Pages ":" = 1 := by
  decide

/-- C8 (amended): on a store with at most one entry per URL, a second `AddPage` call with the
same URL returns what the first call returned and leaves the store unchanged; when the first
call returned a record, the store then holds exactly one entry for the URL, which is that
record; when the record constructor rejected the URL, the store holds no entry for it. -/
theorem AddPage_idempotent (NewPage : String → Option Page) (s : Session) (url : String)
    (hwf : ∀ k, mapCount s.Pages k ≤ 1) :
    (Session.AddPage NewPage (Session.AddPage NewPage s url).2 url).1 =
      (Session.AddPage NewPage s url).1 ∧
    (Session.AddPage NewPage (Session.AddPage NewPage s url).2 url).2 =
      (Session.AddPage NewPage s url).2 ∧
    (∀ page, (Session.AddPage NewPage s url).1 = some page →
      mapCount (Session.AddPage NewPage (Session.AddPage NewPage s url).2 url).2.Pages url = 1 ∧
      (Session.AddPage NewPage (Session.AddPage NewPage s url).2 url).2.GetPage url =
        some page) ∧
    ((Session.AddPage NewPage s url).1 = none →
      mapCount (Session.AddPage NewPage (Session.AddPage NewPage s url).2 url).2.Pages url =
        0) := by
  cases hget : mapGet s.Pages url with
  | some page =>
    have h1 : Session.AddPage NewPage s url = (some page, s) := by
      simp [Session.AddPage, hget]
    rw [h1]
    simp only [h1]
    refine ⟨trivial, trivial, ?_, by simp⟩
    intro p hp
    rw [Option.some.injEq] at hp
    subst hp
    exact ⟨Nat.le_antisymm (hwf url) (mapCount_pos_of_mapGet_some _ _ _ hget), hget⟩
  | none =>
    cases hnew : NewPage url with
    | none =>
      have h1 : Session.AddPage NewPage s url = (none, s) := by
        simp [Session.AddPage, hget, hnew]
      rw [h1]
      simp only [h1]
      exact ⟨trivial, trivial, by simp, fun _ => mapCount_of_mapGet_none _ _ hget⟩
    | some page =>
      have h1 : Session.AddPage NewPage s url =
          (some page, { s with Pages := mapSet s.Pages url page }) := by
        simp [Session.AddPage, hget, hnew]
      have h2 : Session.AddPage NewPage { s with Pages := mapSet s.Pages url page } url =
          (some page, { s with Pages := mapSet s.Pages url page }) := by
        simp [Session.AddPage, mapGet_mapSet]
      rw [h1]
      simp only [h2]
      refine ⟨trivial, trivial, ?_, by simp⟩
      intro p hp
      rw [Option.some.injEq] at hp
      subst hp
      exact ⟨mapCount_mapSet_of_mapGet_none _ _ _ hget, mapGet_mapSet _ _ _⟩

/-- Witness of `AddPage_idempotent`: the empty store and a URL the constructor accepts. -/
theorem AddPage_idempotent_witness :
    (∀ k, mapCount (Session.mk []).Pages k ≤ 1) ∧
    ((Session.AddPage exampleNewPage
        (Session.AddPage exampleNewPage ⟨[]⟩ "http://www.example.com/").2
        "http://www.example.com/").1 =
      (Session.AddPage exampleNewPage ⟨[]⟩ "http://www.example.com/").1 ∧
    (Session.AddPage exampleNewPage
        (Session.AddPage exampleNewPage ⟨[]⟩ "http://www.example.com/").2
        "http://www.example.com/").2 =
      (Session.AddPage exampleNewPage ⟨[]⟩ "http://www.example.com/").2 ∧
    (∀ page, (Session.AddPage exampleNewPage ⟨[]⟩ "http://www.example.com/").1 = some page →
      mapCount (Session.AddPage exampleNewPage
        (Session.AddPage exampleNewPage ⟨[]⟩ "http://www.example.com/").2
        "http://www.example.com/").2.Pages "http://www.example.com/" = 1 ∧
      (Session.AddPage exampleNewPage
        (Session.AddPage exampleNewPage ⟨[]⟩ "http://www.example.com/").2
        "http://www.example.com/").2.GetPage "http://www.example.com/" = some page) ∧
    ((Session.AddPage exampleNewPage ⟨[]⟩ "http://www.example.com/").1 = none →
      mapCount (Session.AddPage exampleNewPage
        (Session.AddPage exampleNewPage ⟨[]⟩ "http://www.example.com/").2
        "http://www.example.com/").2.Pages "http://www.example.com/" = 0)) :=
  ⟨fun _ => Nat.zero_le 1,
    AddPage_idempotent exampleNewPage ⟨[]⟩ "http://www.example.com/" (fun _ => Nat.zero_le 1)⟩

/-! ### Scheme classifier and port scanner: the claims -/

/-- C13: `OnTCPPort` publishes exactly one URL event and does nothing else but the handshake:
for port 80 the URL is built with `http` and for port 443 with `https`, both without a
handshake; for every other port one handshake is attempted and the URL is built with `https`
exactly when it succeeds, and with `http` otherwise. -/
theorem scheme_classification (w : World) (HostAndPortToURL : String → Int → String → String)
    (port : Int) (host : String) :
    URLPublisher.OnTCPPort w HostAndPortToURL port host =
      (if port = 80 then [Effect.Publish (Event.URL (HostAndPortToURL host port "http"))]
       else if port = 443 then
        [Effect.Publish (Event.URL (HostAndPortToURL host port "https"))]
       else
        [Effect.TLSDial host port,
          Effect.Publish (Event.URL (HostAndPortToURL host port
            (if w.TLSDial host port = true then "https" else "http")))]) ∧
    (published (URLPublisher.OnTCPPort w HostAndPortToURL port host)).length = 1 := by
  by_cases h80 : port = 80
  · simp [URLPublisher.OnTCPPort, URLPublisher.isTLS, h80, published]
  · by_cases h443 : port = 443
    · simp [URLPublisher.OnTCPPort, URLPublisher.isTLS, h443, published]
    · by_cases htls : w.TLSDial host port = true <;>
        simp [URLPublisher.OnTCPPort, URLPublisher.isTLS, h80, h443, htls, published]

theorem published_append (l1 l2 : List Effect) :
    published (l1 ++ l2) = published l1 ++ published l2 := by
  induction l1 with
  | nil => rfl
  | cons e rest ih => cases e <;> simp [published, ih]

theorem addUint32_iterate (m : Nat) (counter : Nat) (h : counter < 2 ^ 32) :
    addUint32^[m] counter = (counter + m) % 2 ^ 32 := by
  induction m generalizing counter with
  | zero => simpa using (Nat.mod_eq_of_lt h).symm
  | succ k ih =>
    rw [Function.iterate_succ_apply, ih (addUint32 counter) (Nat.mod_lt _ (by norm_num))]
    unfold addUint32
    omega

theorem OnHost_published (w : World) (host : String) (ports : List Int) :
    ∀ stats : Stats, published (TCPPortScanner.OnHost w host stats ports).2 =
      (ports.filter (fun port => w.TCPDial host port)).map (fun port => Event.TCPPort port host) := by
  induction ports with
  | nil => intro stats; rfl
  | cons port rest ih =>
    intro stats
    by_cases h : w.TCPDial host port = true
    · simp [TCPPortScanner.OnHost, TCPPortScanner.scanUnit, TCPPortScanner.scanPort, h,
        published, ih]
    · simp [TCPPortScanner.OnHost, TCPPortScanner.scanUnit, TCPPortScanner.scanPort, h,
        published, ih]

theorem OnHost_stats (w : World) (host : String) (ports : List Int) :
    ∀ stats : Stats, (TCPPortScanner.OnHost w host stats ports).1 =
      { stats with
        PortOpen := addUint32^[(ports.filter (fun port => w.TCPDial host port)).length]
          stats.PortOpen
        PortClosed := addUint32^[(ports.filter (fun port => !w.TCPDial host port)).length]
          stats.PortClosed } := by
  induction ports with
  | nil => intro stats; rfl
  | cons port rest ih =>
    intro stats
    by_cases h : w.TCPDial host port = true
    · simp [TCPPortScanner.OnHost, TCPPortScanner.scanUnit, TCPPortScanner.scanPort, h, ih,
        Stats.IncrementPortOpen]
    · simp [TCPPortScanner.OnHost, TCPPortScanner.scanUnit, TCPPortScanner.scanPort, h, ih,
        Stats.IncrementPortClosed]

/-- C14: for a configured port list without repetition, `OnHost` publishes the event
`TCPPort(p, host)` for exactly the configured ports whose connect attempt succeeds, once each
and nothing else, it adds the number of successes to the open counter and the number of
failures to the closed counter (both wrap around at `2 ^ 32`), and a host that accepts a
connection on the configured port `P` alone yields the one event `TCPPort(P, host)`. -/
theorem port_scan_events (w : World) (host : String) (stats : Stats) (ports : List Int)
    (hnodup : ports.Nodup) (hopen : stats.PortOpen < 2 ^ 32)
    (hclosed : stats.PortClosed < 2 ^ 32) :
    published (TCPPortScanner.OnHost w host stats ports).2 =
      (ports.filter (fun port => w.TCPDial host port)).map
        (fun port => Event.TCPPort port host) ∧
    (∀ p ∈ ports, w.TCPDial host p = true →
      (published (TCPPortScanner.OnHost w host stats ports).2).count (Event.TCPPort p host) =
        1) ∧
    (∀ p, w.TCPDial host p = false →
      Event.TCPPort p host ∉ published (TCPPortScanner.OnHost w host stats ports).2) ∧
    (TCPPortScanner.OnHost w host stats ports).1 =
      { stats with
        PortOpen :=
          (stats.PortOpen + (ports.filter (fun port => w.TCPDial host port)).length) % 2 ^ 32
        PortClosed :=
          (stats.PortClosed + (ports.filter (fun port => !w.TCPDial host port)).length) %
            2 ^ 32 } ∧
    (∀ P ∈ ports, (∀ p ∈ ports, w.TCPDial host p = true ↔ p = P) →
      published (TCPPortScanner.OnHost w host stats ports).2 = [Event.TCPPort P host]) := by
  have hinj : Function.Injective (fun port : Int => Event.TCPPort port host) := by
    intro a b hab
    simpa using hab
  have hnd : ((ports.filter (fun port => w.TCPDial host port)).map
      (fun port => Event.TCPPort port host)).Nodup :=
    (hnodup.filter _).map hinj
  rw [OnHost_published, OnHost_stats, addUint32_iterate _ _ hopen,
    addUint32_iterate _ _ hclosed]
  refine ⟨rfl, ?_, ?_, rfl, ?_⟩
  · intro p hp hdial
    exact List.count_eq_one_of_mem hnd
      (List.mem_map.mpr ⟨p, List.mem_filter.mpr ⟨hp, by simpa using hdial⟩, rfl⟩)
  · intro p hdial hmem
    obtain ⟨q, hq, hqp⟩ := List.mem_map.mp hmem
    have hqp2 : q = p := by simpa using hqp
    subst hqp2
    have := (List.mem_filter.mp hq).2
    simp [hdial] at this
  · intro P hP hiff
    have hfilter : ports.filter (fun port => w.TCPDial host port) = [P] := by
      have h1 : ports.filter (fun port => w.TCPDial host port) =
          ports.filter (fun port => decide (port = P)) := by
        apply List.filter_congr
        intro p hp
        have := hiff p hp
        by_cases hpP : p = P
        · simp [hpP, (hiff P hP).mpr rfl]
        · have hf : w.TCPDial host p ≠ true := fun h => hpP (this.mp h)
          simp [hpP, hf]
      rw [h1]
      have h2 : ports.filter (fun port => decide (port = P)) =
          List.replicate (ports.count P) P := by
        rw [List.count, List.countP_eq_length_filter]
        apply List.eq_replicate_of_mem
        intro b hb
        have := (List.mem_filter.mp hb).2
        simpa using this
      rw [h2, List.count_eq_one_of_mem hnodup hP]
      rfl
    rw [hfilter]
    rfl

/-- Witness of `port_scan_events`: ports 80, 443 and 8080 with a listener on 443 alone. -/
theorem port_scan_events_witness :
    ([80, 443, 8080] : List Int).Nodup ∧ zeroStats.PortOpen < 2 ^ 32 ∧
    zeroStats.PortClosed < 2 ^ 32 ∧
    published (TCPPortScanner.OnHost
        { offlineWorld with TCPDial := fun _ port => decide (port = 443) }
        "www.example.com" zeroStats [80, 443, 8080]).2 =
      [Event.TCPPort 443 "www.example.com"] ∧
    (TCPPortScanner.OnHost
        { offlineWorld with TCPDial := fun _ port => decide (port = 443) }
        "www.example.com" zeroStats [80, 443, 8080]).1 =
      { zeroStats with PortOpen := 1, PortClosed := 2 } :=
  have h := port_scan_events { offlineWorld with TCPDial := fun _ port => decide (port = 443) }
    "www.example.com" zeroStats [80, 443, 8080] (by decide) (by decide) (by decide)
  ⟨by decide, by decide, by decide, h.2.2.2.2 443 (by decide) (by decide), h.2.2.2.1⟩

/-! ### The limiter and the screenshot capturer: the claims -/

/-- C15 (the code at the failing input): for port 8080 `URLPublisher.OnTCPPort` performs the
TLS handshake without holding a slot of the limiter (no `WaitGroup.Add` comes before it),
whatever the handshake gives; the port scanner's connect attempts on the same host are all
made inside a unit that holds a slot. -/
theorem tls_handshake_outside_limiter (w : World)
    (HostAndPortToURL : String → Int → String → String) :
    URLPublisher.OnTCPPort w HostAndPortToURL 8080 "www.example.com" =
      [Effect.TLSDial "www.example.com" 8080,
        Effect.Publish (Event.URL (HostAndPortToURL "www.example.com" 8080
          (if w.TLSDial "www.example.com" 8080 = true then "https" else "http")))] ∧
    unitsGuarded 0 (URLPublisher.OnTCPPort w HostAndPortToURL 8080 "www.example.com") = false ∧
    unitsGuarded 0 (TCPPortScanner.OnHost w "www.example.com" zeroStats [80, 8080]).2 = true := by
  refine ⟨?_, ?_, ?_⟩
  · by_cases htls : w.TLSDial "www.example.com" 8080 = true <;>
      simp [URLPublisher.OnTCPPort, URLPublisher.isTLS, htls]
  · by_cases htls : w.TLSDial "www.example.com" 8080 = true <;>
      simp [URLPublisher.OnTCPPort, URLPublisher.isTLS, htls, unitsGuarded,
        Effect.isBlocking]
  · by_cases h1 : w.TCPDial "www.example.com" 80 = true <;>
      by_cases h2 : w.TCPDial "www.example.com" 8080 = true <;>
      simp [TCPPortScanner.OnHost, TCPPortScanner.scanUnit, TCPPortScanner.scanPort, h1, h2,
        unitsGuarded, Effect.isBlocking]

/-- C17 (the code at the failing input): with no override path and both
`/usr/bin/google-chrome` and `/usr/bin/chromium` installed, the first path of the list that
exists is `/usr/bin/google-chrome`, and `locateChrome` selects `/usr/bin/chromium`, the last
one that exists. -/
theorem locateChrome_selects_last_existing_path :
    chromePaths.find? (fun path => !chromeAndChromiumWorld.NotExist path) =
      some "/usr/bin/google-chrome" ∧
    URLScreenshotter.locateChrome chromeAndChromiumWorld defaultOptions
      { chromePath := "", tempUserDirPath := "/tmp/aquatone-chrome2250061395" } =
      some "/usr/bin/chromium" := by
  decide

/-- C18 (counterexample): the argument lists built for the two distinct URLs
`http://a.example.com/` and `http://b.example.com/` name the same profile directory. -/
theorem screenshot_profile_directory_is_shared :
    (emptyPage "http://a.example.com/").URL ≠ (emptyPage "http://b.example.com/").URL ∧
    userDataDirArgument (URLScreenshotter.chromeArguments offlineWorld defaultOptions
        { chromePath := "/usr/bin/chromium", tempUserDirPath := "/tmp/aquatone-chrome2250061395" }
        (emptyPage "http://a.example.com/")) =
      userDataDirArgument (URLScreenshotter.chromeArguments offlineWorld defaultOptions
        { chromePath := "/usr/bin/chromium", tempUserDirPath := "/tmp/aquatone-chrome2250061395" }
        (emptyPage "http://b.example.com/")) ∧
    userDataDirArgument (URLScreenshotter.chromeArguments offlineWorld defaultOptions
        { chromePath := "/usr/bin/chromium", tempUserDirPath := "/tmp/aquatone-chrome2250061395" }
        (emptyPage "http://a.example.com/")) =
      some "--user-data-dir=/tmp/aquatone-chrome2250061395" := by
  decide

theorem hasPrefix_append (pre rest : String) : hasPrefix (pre ++ rest) pre = true := by
  simp [hasPrefix, String.data_append]

/-- C18 (amended): for every record, the profile directory argument of the argument list that
`screenshotPage` builds is `--user-data-dir=` followed by the one temporary directory of the
run, so all invocations name the same profile directory. -/
theorem screenshot_profile_directory (w : World) (options : Options) (us : URLScreenshotter)
    (page : Page) :
    userDataDirArgument (us.chromeArguments w options page) =
      some ("--user-data-dir=" ++ us.tempUserDirPath) := by
  have hp := hasPrefix_append "--user-data-dir=" us.tempUserDirPath
  have h1 : ∀ rest : List String, userDataDirArgument
      (["--headless", "--disable-gpu", "--hide-scrollbars", "--mute-audio",
        "--disable-notifications", "--no-first-run", "--disable-crash-reporter",
        "--ignore-certificate-errors", "--incognito", "--disable-infobars", "--disable-sync",
        "--no-default-browser-check", "--user-data-dir=" ++ us.tempUserDirPath] ++ rest) =
      some ("--user-data-dir=" ++ us.tempUserDirPath) := by
    intro rest
    simp only [userDataDirArgument, List.cons_append, List.nil_append, List.find?_cons]
    have e1 : hasPrefix "--headless" "--user-data-dir=" = false := by decide
    have e2 : hasPrefix "--disable-gpu" "--user-data-dir=" = false := by decide
    have e3 : hasPrefix "--hide-scrollbars" "--user-data-dir=" = false := by decide
    have e4 : hasPrefix "--mute-audio" "--user-data-dir=" = false := by decide
    have e5 : hasPrefix "--disable-notifications" "--user-data-dir=" = false := by decide
    have e6 : hasPrefix "--no-first-run" "--user-data-dir=" = false := by decide
    have e7 : hasPrefix "--disable-crash-reporter" "--user-data-dir=" = false := by decide
    have e8 : hasPrefix "--ignore-certificate-errors" "--user-data-dir=" = false := by decide
    have e9 : hasPrefix "--incognito" "--user-data-dir=" = false := by decide
    have e10 : hasPrefix "--disable-infobars" "--user-data-dir=" = false := by decide
    have e11 : hasPrefix "--disable-sync" "--user-data-dir=" = false := by decide
    have e12 : hasPrefix "--no-default-browser-check" "--user-data-dir=" = false := by decide
    simp only [e1, e2, e3, e4, e5, e6, e7, e8, e9, e10, e11, e12, hp]
  unfold URLScreenshotter.chromeArguments
  simp only []
  split <;> split <;> simp only [List.cons_append, List.nil_append, List.append_assoc] <;>
    exact h1 _

/-- C19: `screenshotPage` increments `ScreenshotFailed` alone and returns the record as it
was when the browser cannot be started, exits with an error or runs into the deadline; on a
normal exit it increments `ScreenshotSuccessful` alone and sets `ScreenshotPath` to
`screenshots/<basefilename>.png` and `HasScreenshot` to true, and no other field. -/
theorem screenshot_outcome (w : World) (options : Options) (us : URLScreenshotter)
    (stats : Stats) (page : Page) :
    us.screenshotPage w options stats page =
      (if w.RunChrome us.chromePath (us.chromeArguments w options page) = ChromeResult.Exited
       then
        ({ stats with ScreenshotSuccessful := (stats.ScreenshotSuccessful + 1) % 2 ^ 32 },
          { page with
            ScreenshotPath := "screenshots/" ++ w.BaseFilename page ++ ".png"
            HasScreenshot := true })
       else ({ stats with ScreenshotFailed := (stats.ScreenshotFailed + 1) % 2 ^ 32 }, page)) := by
  unfold URLScreenshotter.screenshotPage
  cases h : w.RunChrome us.chromePath (us.chromeArguments w options page) <;>
    simp [Stats.IncrementScreenshotFailed, Stats.IncrementScreenshotSuccessful, addUint32]

/-- C20 (the code at the failing input): for the URL `http://[::1]:8080/`, whose host is
`[::1]:8080`, only the first colon of the host is replaced, and the base filename contains
the character `:`. -/
theorem base_filename_keeps_colons :
    Session.BaseFilenameFromURL exampleParse exampleSha1 "http://[::1]:8080/" =
      "http__[__:1]:8080__42099b4af021e53f" ∧
    ':' ∈ (Session.BaseFilenameFromURL exampleParse exampleSha1 "http://[::1]:8080/").data := by
  decide

/-! ### Technology fingerprinter: a second pass, and loading the patterns -/

theorem lookupLoop_frame (p : Page) (implName : String) (fps : List Fingerprint) :
    lookupLoop p implName fps =
      { p with Tags := p.Tags ++ (lookupLoop (emptyPage "") implName fps).Tags } := by
  induction fps with
  | nil => simp [lookupLoop, emptyPage]
  | cons f rest ih =>
    by_cases h : implName = f.Name
    · simp [lookupLoop, h, Page.AddTag, emptyPage]
    · simp only [lookupLoop, h, if_false]
      exact ih

theorem impliesLoop_frame (fps : List Fingerprint) (impls : List String) :
    ∀ (seen : List String) (p : Page),
      impliesLoop fps seen p impls =
        ((impliesLoop fps seen (emptyPage "") impls).1,
          { p with Tags := p.Tags ++ (impliesLoop fps seen (emptyPage "") impls).2.Tags }) := by
  induction impls with
  | nil => intro seen p; simp [impliesLoop, emptyPage]
  | cons impl rest ih =>
    intro seen p
    by_cases h : impl ∈ seen
    · simp only [impliesLoop, h, if_true]
      exact ih seen p
    · simp only [impliesLoop, h, if_false]
      rw [ih (impl :: seen) (lookupLoop p impl fps),
        ih (impl :: seen) (lookupLoop (emptyPage "") impl fps), lookupLoop_frame p impl fps]
      simp [emptyPage]

theorem tagLoop_frame (fps : List Fingerprint) (matched : List Fingerprint) :
    ∀ (seen : List String) (p : Page),
      tagLoop fps seen p matched =
        ((tagLoop fps seen (emptyPage "") matched).1,
          { p with Tags := p.Tags ++ (tagLoop fps seen (emptyPage "") matched).2.Tags }) := by
  induction matched with
  | nil => intro seen p; simp [tagLoop, emptyPage]
  | cons f rest ih =>
    intro seen p
    by_cases h : f.Name ∈ seen
    · simp only [tagLoop, h, if_true]
      exact ih seen p
    · simp only [tagLoop, h, if_false]
      rw [ih, impliesLoop_frame fps f.Implies (f.Name :: seen)
        (p.AddTag f.Name "info" f.Website)]
      conv_rhs => rw [ih, impliesLoop_frame fps f.Implies (f.Name :: seen)
        ((emptyPage "").AddTag f.Name "info" f.Website)]
      simp [emptyPage, Page.AddTag]

/-- C11: when the record's body artifact is the same for the second pass as for the first
(the pass leaves its header list and the ruleset as they are), the second fingerprint pass
adds the very tags the first pass added, and the set of tags of the record after the second
pass is the set of its tags after the first pass. -/
theorem fingerprint_pass_twice (uf : URLTechnologyFingerprinter) (w : World) (page : Page)
    (hbody : w.BaseFilename (uf.fingerprintPass w page) = w.BaseFilename page) :
    addedTags (uf.fingerprintPass w page) (uf.fingerprintPass w (uf.fingerprintPass w page)) =
      addedTags page (uf.fingerprintPass w page) ∧
    (uf.fingerprintPass w (uf.fingerprintPass w page)).Tags.toFinset =
      (uf.fingerprintPass w page).Tags.toFinset := by
  have hpass : ∀ q : Page, uf.fingerprintPass w q =
      { q with Tags := q.Tags ++
        (tagLoop uf.fingerprints [] (emptyPage "") (uf.matched w q)).2.Tags } := by
    intro q
    unfold URLTechnologyFingerprinter.fingerprintPass
    rw [tagLoop_frame]
  have hmatched : uf.matched w (uf.fingerprintPass w page) = uf.matched w page := by
    unfold URLTechnologyFingerprinter.matched
    congr 1
    · rw [hpass page]
      rfl
    · unfold URLTechnologyFingerprinter.fingerprintBody
      rw [hbody]
  have h2 : uf.fingerprintPass w (uf.fingerprintPass w page) =
      { uf.fingerprintPass w page with Tags := (uf.fingerprintPass w page).Tags ++
        (tagLoop uf.fingerprints [] (emptyPage "") (uf.matched w page)).2.Tags } := by
    rw [hpass (uf.fingerprintPass w page), hmatched]
  constructor
  · rw [h2, addedTags_append]
    conv_rhs => rw [hpass page, addedTags_append]
  · rw [h2]
    conv_lhs => rw [hpass page]
    conv_rhs => rw [hpass page]
    ext t
    simp only [List.mem_toFinset, List.mem_append]
    tauto

/-- Witness of `fingerprint_pass_twice`: the example ruleset on a page matching the
WooCommerce rule. -/
theorem fingerprint_pass_twice_witness :
    (bodyWorld "<div class=\"woocommerce\"></div>").BaseFilename
        (URLTechnologyFingerprinter.fingerprintPass ⟨[wooCommerceRule, wordPressRule, phpRule]⟩
          (bodyWorld "<div class=\"woocommerce\"></div>")
          (emptyPage "http://shop.example.com/")) =
      (bodyWorld "<div class=\"woocommerce\"></div>").BaseFilename
        (emptyPage "http://shop.example.com/") ∧
    (addedTags
        (URLTechnologyFingerprinter.fingerprintPass ⟨[wooCommerceRule, wordPressRule, phpRule]⟩
          (bodyWorld "<div class=\"woocommerce\"></div>")
          (emptyPage "http://shop.example.com/"))
        (URLTechnologyFingerprinter.fingerprintPass ⟨[wooCommerceRule, wordPressRule, phpRule]⟩
          (bodyWorld "<div class=\"woocommerce\"></div>")
          (URLTechnologyFingerprinter.fingerprintPass
            ⟨[wooCommerceRule, wordPressRule, phpRule]⟩
            (bodyWorld "<div class=\"woocommerce\"></div>")
            (emptyPage "http://shop.example.com/"))) =
      addedTags (emptyPage "http://shop.example.com/")
        (URLTechnologyFingerprinter.fingerprintPass ⟨[wooCommerceRule, wordPressRule, phpRule]⟩
          (bodyWorld "<div class=\"woocommerce\"></div>")
          (emptyPage "http://shop.example.com/")) ∧
    (URLTechnologyFingerprinter.fingerprintPass ⟨[wooCommerceRule, wordPressRule, phpRule]⟩
        (bodyWorld "<div class=\"woocommerce\"></div>")
        (URLTechnologyFingerprinter.fingerprintPass ⟨[wooCommerceRule, wordPressRule, phpRule]⟩
          (bodyWorld "<div class=\"woocommerce\"></div>")
          (emptyPage "http://shop.example.com/"))).Tags.toFinset =
      (URLTechnologyFingerprinter.fingerprintPass ⟨[wooCommerceRule, wordPressRule, phpRule]⟩
        (bodyWorld "<div class=\"woocommerce\"></div>")
        (emptyPage "http://shop.example.com/")).Tags.toFinset) :=
  ⟨by decide,
    fingerprint_pass_twice ⟨[wooCommerceRule, wordPressRule, phpRule]⟩
      (bodyWorld "<div class=\"woocommerce\"></div>") (emptyPage "http://shop.example.com/")
      (by decide)⟩

theorem loadListLoop_eq (compile : String → Option FingerprintRegexp) (patterns : List String) :
    ∀ loaded : List FingerprintRegexp,
      loadListLoop compile patterns loaded = loaded ++ patterns.filterMap compile := by
  induction patterns with
  | nil => intro loaded; simp [loadListLoop]
  | cons pattern rest ih =>
    intro loaded
    cases h : compile pattern with
    | none => simp [loadListLoop, Fingerprint.compilePattern, h, ih]
    | some r => simp [loadListLoop, Fingerprint.compilePattern, h, ih]

theorem mapGet_mapSet_ne {V : Type} (m : List (String × V)) (k k2 : String) (v : V)
    (h : k2 ≠ k) : mapGet (mapSet m k v) k2 = mapGet m k2 := by
  induction m with
  | nil => simp [mapSet, mapGet, h.symm]
  | cons e rest ih =>
    obtain ⟨k1, v1⟩ := e
    by_cases hk : k1 = k
    · subst hk
      simp [mapSet, mapGet, h.symm]
    · by_cases hk2 : k1 = k2
      · subst hk2
        simp [mapSet, mapGet, hk]
      · simp [mapSet, mapGet, hk, hk2, ih]

theorem loadMapLoop_keys (compile : String → Option FingerprintRegexp)
    (entries : List (String × String)) :
    ∀ (loaded : List (String × FingerprintRegexp)) (key : String),
      (mapGet (loadMapLoop compile entries loaded) key).isSome = true ↔
        ((mapGet loaded key).isSome = true ∨
          ∃ pattern, (key, pattern) ∈ entries ∧ (compile pattern).isSome = true) := by
  induction entries with
  | nil => intro loaded key; simp [loadMapLoop]
  | cons e rest ih =>
    intro loaded key
    obtain ⟨k, pattern⟩ := e
    cases h : compile pattern with
    | none =>
      simp only [loadMapLoop, Fingerprint.compilePattern, h, ih, List.mem_cons, Prod.mk.injEq]
      constructor
      · rintro (h1 | ⟨p, hp, hc⟩)
        · exact Or.inl h1
        · exact Or.inr ⟨p, Or.inr hp, hc⟩
      · rintro (h1 | ⟨p, (⟨_, rfl⟩ | hp), hc⟩)
        · exact Or.inl h1
        · simp [h] at hc
        · exact Or.inr ⟨p, hp, hc⟩
    | some r =>
      simp only [loadMapLoop, Fingerprint.compilePattern, h, ih, List.mem_cons, Prod.mk.injEq]
      by_cases hk : key = k
      · subst hk
        simp only [mapGet_mapSet, Option.isSome_some, true_or, true_iff]
        exact Or.inr ⟨pattern, by simp, by simp [h]⟩
      · rw [mapGet_mapSet_ne _ _ _ _ hk]
        constructor
        · rintro (h1 | ⟨p, hp, hc⟩)
          · exact Or.inl h1
          · exact Or.inr ⟨p, Or.inr hp, hc⟩
        · rintro (h1 | ⟨p, (⟨hkk, _⟩ | hp), hc⟩)
          · exact Or.inl h1
          · exact absurd hkk hk
          · exact Or.inr ⟨p, hp, hc⟩

/-- C12: on a rule whose lists of compiled matchers are still empty, `LoadPatterns` fills
`HTMLFingerprints` and `ScriptFingerprints` with the matchers of the patterns of `HTML` and
`Script` that compile, in the original order, and `HeaderFingerprints` and `MetaFingerprints`
have a key exactly for the keys of `Headers` and `Meta` that have an entry whose pattern
compiles; the rule's other fields stay as they are. -/
theorem LoadPatterns_skips_failing_patterns (compile : String → Option FingerprintRegexp)
    (f : Fingerprint) (hhtml : f.HTMLFingerprints = []) (hscript : f.ScriptFingerprints = []) :
    (f.LoadPatterns compile).HTMLFingerprints = f.HTML.filterMap compile ∧
    (f.LoadPatterns compile).ScriptFingerprints = f.Script.filterMap compile ∧
    (∀ key, (mapGet (f.LoadPatterns compile).HeaderFingerprints key).isSome = true ↔
      ∃ pattern, (key, pattern) ∈ f.Headers ∧ (compile pattern).isSome = true) ∧
    (∀ key, (mapGet (f.LoadPatterns compile).MetaFingerprints key).isSome = true ↔
      ∃ pattern, (key, pattern) ∈ f.Meta ∧ (compile pattern).isSome = true) ∧
    (f.LoadPatterns compile).Name = f.Name ∧
    (f.LoadPatterns compile).Implies = f.Implies ∧
    (f.LoadPatterns compile).Website = f.Website := by
  refine ⟨?_, ?_, ?_, ?_, rfl, rfl, rfl⟩
  · simp [Fingerprint.LoadPatterns, loadListLoop_eq, hhtml]
  · simp [Fingerprint.LoadPatterns, loadListLoop_eq, hscript]
  · intro key
    simp [Fingerprint.LoadPatterns, loadMapLoop_keys, mapGet]
  · intro key
    simp [Fingerprint.LoadPatterns, loadMapLoop_keys, mapGet]

/-- Witness of `LoadPatterns_skips_failing_patterns`: a rule with one pattern that compiles
and one that does not in each of its lists and maps. -/
theorem LoadPatterns_skips_failing_patterns_witness :
    ({ emptyRule "WooCommerce" "https://woocommerce.com" ["WordPress"] with
        HTML := ["woocommerce", "("]
        Headers := [("X-Powered-By", "("), ("Server", "nginx")] } : Fingerprint).HTMLFingerprints
      = [] ∧
    ({ emptyRule "WooCommerce" "https://woocommerce.com" ["WordPress"] with
        HTML := ["woocommerce", "("]
        Headers := [("X-Powered-By", "("), ("Server", "nginx")] } :
        Fingerprint).ScriptFingerprints = [] ∧
    (Fingerprint.LoadPatterns exampleCompile
      { emptyRule "WooCommerce" "https://woocommerce.com" ["WordPress"] with
        HTML := ["woocommerce", "("]
        Headers := [("X-Powered-By", "("), ("Server", "nginx")] }).HTMLFingerprints =
      ["woocommerce", "("].filterMap exampleCompile :=
  ⟨rfl, rfl,
    (LoadPatterns_skips_failing_patterns exampleCompile
      { emptyRule "WooCommerce" "https://woocommerce.com" ["WordPress"] with
        HTML := ["woocommerce", "("]
        Headers := [("X-Powered-By", "("), ("Server", "nginx")] } rfl rfl).1⟩

/-! ### At most one takeover tag, and base filenames of different hosts -/

theorem providerTags_takeover_count (pr : Provider) (body : String) :
    ((providerTags pr body).filter (fun t => decide (t.Text = "Domain Takeover"))).length =
      if vulnerable pr body = true then 1 else 0 := by
  have hinfo : ((infoTag pr).toList.filter
      (fun t => decide (t.Text = "Domain Takeover"))) = [] := by
    cases pr <;> simp [infoTag]
  by_cases hv : vulnerable pr body = true
  · simp [providerTags, hv, hinfo]
  · simp [providerTags, hv, hinfo]

theorem providerStops_of_vulnerable (pr : Provider) (body : String)
    (h : providerStops pr body = false) : vulnerable pr body = false := by
  cases pr <;> simp [providerStops] at h ⊢
  exact h

theorem chainFrom_takeover_count (addrs : List String) (cname body : String)
    (l : List Provider) :
    ∀ p : Page, ∃ added : List Tag,
      (chainFrom p addrs cname body l).Tags = p.Tags ++ added ∧
      (added.filter (fun t => decide (t.Text = "Domain Takeover"))).length ≤ 1 := by
  induction l with
  | nil => intro p; exact ⟨[], by simp [chainFrom], by simp⟩
  | cons pr rest ih =>
    intro p
    by_cases hid : identified pr addrs cname = true
    · by_cases hs : providerStops pr body = true
      · refine ⟨providerTags pr body, by simp [chainFrom, providerStep, hid, hs], ?_⟩
        rw [providerTags_takeover_count]
        split <;> simp
      · have hs2 : providerStops pr body = false := by simpa using hs
        obtain ⟨added, he, hc⟩ := ih { p with Tags := p.Tags ++ providerTags pr body }
        refine ⟨providerTags pr body ++ added, ?_, ?_⟩
        · simp [chainFrom, providerStep, hid, hs2, he]
        · rw [List.filter_append, List.length_append, providerTags_takeover_count,
            providerStops_of_vulnerable pr body hs2]
          simpa using hc
    · have hid2 : identified pr addrs cname = false := by simpa using hid
      obtain ⟨added, he, hc⟩ := ih p
      exact ⟨added, by simp [chainFrom, providerStep, hid2, he], hc⟩

/-- C25: for every resolved address list, CNAME and body, one run of the takeover chain adds
at most one tag named "Domain Takeover" to the record. -/
theorem at_most_one_takeover_tag (page : Page) (addrs : List String) (cname body : String) :
    ((addedTags page (detectorChain page addrs cname body)).filter
      (fun t => decide (t.Text = "Domain Takeover"))).length ≤ 1 := by
  rw [detectorChain_eq]
  obtain ⟨added, he, hc⟩ := chainFrom_takeover_count addrs cname body providers page
  rw [addedTags_of_tags_eq page _ added he]
  exact hc

/-- C21 (counterexample): the URLs `http://a.b.example.com/` and `http://a_b.example.com/`
have the same scheme, path and fragment and hosts that differ after lower-casing, and they
have the same base filename. -/
theorem base_filename_collides_on_dot_and_underscore :
    toLower "a.b.example.com".data ≠ toLower "a_b.example.com".data ∧
    Session.BaseFilenameFromURL exampleParseHosts exampleSha1 "http://a.b.example.com/" =
      Session.BaseFilenameFromURL exampleParseHosts exampleSha1 "http://a_b.example.com/" ∧
    Session.BaseFilenameFromURL exampleParseHosts exampleSha1 "http://a.b.example.com/" =
      "http__a_b_example_com__42099b4af021e53f" := by
  decide

/-- C21 (amended): for two parsable URLs with the same scheme, path and fragment, the base
filenames differ if and only if the hosts differ after the normalization of
`BaseFilenameFromURL` (the first `:` replaced by `__`, every `.` replaced by `_`, then
lower-cased). -/
theorem base_filename_differs_iff_normalized_hosts_differ (parse : String → Option URL)
    (sha1hex : String → String) (str1 str2 : String) (u1 u2 : URL)
    (h1 : parse str1 = some u1) (h2 : parse str2 = some u2)
    (hscheme : u1.Scheme = u2.Scheme) (hpath : u1.Path = u2.Path)
    (hfragment : u1.Fragment = u2.Fragment) :
    Session.BaseFilenameFromURL parse sha1hex str1 ≠
        Session.BaseFilenameFromURL parse sha1hex str2 ↔
      toLower (normalizedHost u1.Host) ≠ toLower (normalizedHost u2.Host) := by
  simp only [Session.BaseFilenameFromURL, h1, h2, hscheme, hpath, hfragment, normalizedHost,
    toLower, ne_eq, List.map_append, List.append_assoc]
  rw [not_iff_not, String.ext_iff]
  simp only [List.append_cancel_left_eq, List.append_cancel_right_eq]

/-- Witness of `base_filename_differs_iff_normalized_hosts_differ` on the example URLs. -/
theorem base_filename_differs_iff_normalized_hosts_differ_witness :
    (exampleParseHosts "http://a.b.example.com/" =
        some { Scheme := "http", Host := "a.b.example.com", Path := "/", Fragment := "" } ∧
      exampleParseHosts "http://a_b.example.com/" =
        some { Scheme := "http", Host := "a_b.example.com", Path := "/", Fragment := "" }) ∧
    (Session.BaseFilenameFromURL exampleParseHosts exampleSha1 "http://a.b.example.com/" ≠
        Session.BaseFilenameFromURL exampleParseHosts exampleSha1 "http://a_b.example.com/" ↔
      toLower (normalizedHost "a.b.example.com") ≠
        toLower (normalizedHost "a_b.example.com")) :=
  ⟨⟨by decide, by decide⟩,
    base_filename_differs_iff_normalized_hosts_differ exampleParseHosts exampleSha1
      "http://a.b.example.com/" "http://a_b.example.com/"
      { Scheme := "http", Host := "a.b.example.com", Path := "/", Fragment := "" }
      { Scheme := "http", Host := "a_b.example.com", Path := "/", Fragment := "" }
      (by decide) (by decide) rfl rfl rfl⟩

/-! ### The port specification: the claim -/

theorem parseDigits_eq_some (digits : List Char) :
    ∀ (acc v : Nat), parseDigits digits acc = some v ↔
      ((∀ c ∈ digits, 48 ≤ c.toNat ∧ c.toNat ≤ 57) ∧
        v = digits.foldl (fun acc c => acc * 10 + (c.toNat - 48)) acc) := by
  induction digits with
  | nil =>
    intro acc v
    simp [parseDigits, eq_comm]
  | cons c rest ih =>
    intro acc v
    by_cases hc : 48 ≤ c.toNat ∧ c.toNat ≤ 57
    · simp [parseDigits, digitValue, hc, ih]
    · simp only [parseDigits, digitValue, hc, if_false, List.mem_cons, forall_eq_or_imp,
        false_and]
      simp

theorem parseDigits_zero (digits : List Char) (v : Nat) :
    parseDigits digits 0 = some v ↔
      ((∀ c ∈ digits, 48 ≤ c.toNat ∧ c.toNat ≤ 57) ∧ v = digitsValue digits) :=
  parseDigits_eq_some digits 0 v

theorem Atoi_eq_iff_decimalInteger (s : List Char) (n : Int)
    (hlow : -(2 : Int) ^ 63 ≤ n) (hhigh : n < (2 : Int) ^ 63) :
    Atoi s = some n ↔ decimalInteger s n := by
  cases s with
  | nil =>
    simp only [Atoi, decimalInteger]
    constructor
    · intro h; cases h
    · rintro ⟨digits, hne, _, (⟨h, _⟩ | ⟨h, _⟩ | ⟨h, _⟩)⟩
      · exact absurd h.symm hne
      · cases h
      · cases h
  | cons c rest =>
    by_cases hminus : c = '-'
    · subst hminus
      simp only [Atoi, if_true]
      constructor
      · intro h
        by_cases hrest : rest = []
        · simp [hrest] at h
        · simp only [hrest, if_false] at h
          cases hp : parseDigits rest 0 with
          | none => simp [hp] at h
          | some v =>
            simp only [hp] at h
            split at h
            · obtain ⟨hd, hv⟩ := (parseDigits_zero rest v).mp hp
              refine ⟨rest, hrest, hd, Or.inr (Or.inr ⟨rfl, ?_⟩)⟩
              rw [← hv]
              exact (Option.some.inj h).symm
            · cases h
      · rintro ⟨digits, hne, hd, (⟨h, _⟩ | ⟨h, _⟩ | ⟨h, hn⟩)⟩
        · have := hd '-' (by rw [← h]; exact List.mem_cons_self _ _)
          simp at this
        · simp at h
        · obtain ⟨_, rfl⟩ := List.cons.inj h
          have hp := (parseDigits_zero rest (digitsValue rest)).mpr ⟨hd, rfl⟩
          have hbound : digitsValue rest ≤ 9223372036854775808 := by
            have : -(2 : Int) ^ 63 ≤ -(digitsValue rest : Int) := hn ▸ hlow
            omega
          simp [hne, hp, hbound, hn]
    · by_cases hplus : c = '+'
      · subst hplus
        simp only [Atoi, hminus, if_false, if_true]
        constructor
        · intro h
          by_cases hrest : rest = []
          · simp [hrest] at h
          · simp only [hrest, if_false] at h
            cases hp : parseDigits rest 0 with
            | none => simp [hp] at h
            | some v =>
              simp only [hp] at h
              split at h
              · obtain ⟨hd, hv⟩ := (parseDigits_zero rest v).mp hp
                refine ⟨rest, hrest, hd, Or.inr (Or.inl ⟨rfl, ?_⟩)⟩
                rw [← hv]
                exact (Option.some.inj h).symm
              · cases h
        · rintro ⟨digits, hne, hd, (⟨h, _⟩ | ⟨h, hn⟩ | ⟨h, _⟩)⟩
          · have := hd '+' (by rw [← h]; exact List.mem_cons_self _ _)
            simp at this
          · obtain ⟨_, rfl⟩ := List.cons.inj h
            have hp := (parseDigits_zero rest (digitsValue rest)).mpr ⟨hd, rfl⟩
            have hbound : digitsValue rest < 9223372036854775808 := by
              have : (digitsValue rest : Int) < (2 : Int) ^ 63 := hn ▸ hhigh
              omega
            simp [hne, hp, hbound, hn]
          · simp at h
      · simp only [Atoi, hminus, hplus, if_false]
        constructor
        · intro h
          cases hp : parseDigits (c :: rest) 0 with
          | none => simp [hp] at h
          | some v =>
            simp only [hp] at h
            split at h
            · obtain ⟨hd, hv⟩ := (parseDigits_zero (c :: rest) v).mp hp
              refine ⟨c :: rest, by simp, hd, Or.inl ⟨rfl, ?_⟩⟩
              rw [← hv]
              exact (Option.some.inj h).symm
            · cases h
        · rintro ⟨digits, hne, hd, (⟨h, hn⟩ | ⟨h, _⟩ | ⟨h, _⟩)⟩
          · subst h
            have hp := (parseDigits_zero (c :: rest) (digitsValue (c :: rest))).mpr ⟨hd, rfl⟩
            have hbound : digitsValue (c :: rest) < 9223372036854775808 := by
              have : (digitsValue (c :: rest) : Int) < (2 : Int) ^ 63 := hn ▸ hhigh
              omega
            simp [hp, hbound, hn]
          · exact absurd (List.cons.inj h).1 hplus
          · exact absurd (List.cons.inj h).1 hminus

theorem Atoi_port_iff (s : List Char) (n : Int) (h1 : 1 ≤ n) (h2 : n ≤ 65535) :
    Atoi s = some n ↔ decimalInteger s n :=
  Atoi_eq_iff_decimalInteger s n (by omega) (by omega)

theorem initPortsLoop_none_iff (items : List (List Char)) :
    ∀ ports : List Int, initPortsLoop items ports = none ↔
      ∃ item ∈ items, ¬ ∃ n : Int, decimalInteger (TrimSpace item) n ∧ 1 ≤ n ∧ n ≤ 65535 := by
  induction items with
  | nil => intro ports; simp [initPortsLoop]
  | cons p rest ih =>
    intro ports
    cases hp : Atoi (TrimSpace p) with
    | none =>
      simp only [initPortsLoop, hp, List.mem_cons, exists_eq_or_imp, true_iff]
      left
      rintro ⟨n, hd, h1, h2⟩
      rw [(Atoi_port_iff _ n h1 h2).mpr hd] at hp
      cases hp
    | some port =>
      by_cases hrange : port < 1 ∨ port > 65535
      · simp only [initPortsLoop, hp, hrange, if_true, List.mem_cons, exists_eq_or_imp, true_iff]
        left
        rintro ⟨n, hd, h1, h2⟩
        rw [(Atoi_port_iff _ n h1 h2).mpr hd] at hp
        have := Option.some.inj hp
        omega
      · simp only [initPortsLoop, hp, hrange, if_false, List.mem_cons, exists_eq_or_imp, ih]
        constructor
        · intro h
          exact Or.inr h
        · rintro (h | h)
          · exact absurd ⟨port, (Atoi_port_iff _ port (by omega) (by omega)).mp hp,
              by omega, by omega⟩ h
          · exact h

theorem initPortsLoop_some (items : List (List Char)) :
    ∀ ports result : List Int, initPortsLoop items ports = some result →
      ∃ values : List Int, result = ports ++ values ∧
        List.Forall₂ (fun item port => decimalInteger (TrimSpace item) port ∧
          1 ≤ port ∧ port ≤ 65535) items values := by
  induction items with
  | nil =>
    intro ports result h
    simp only [initPortsLoop, Option.some.injEq] at h
    exact ⟨[], by simp [h], List.Forall₂.nil⟩
  | cons p rest ih =>
    intro ports result h
    cases hp : Atoi (TrimSpace p) with
    | none => simp [initPortsLoop, hp] at h
    | some port =>
      by_cases hrange : port < 1 ∨ port > 65535
      · simp [initPortsLoop, hp, hrange] at h
      · simp only [initPortsLoop, hp, hrange, if_false] at h
        obtain ⟨values, hv, hall⟩ := ih _ _ h
        refine ⟨port :: values, by simp [hv], List.Forall₂.cons ?_ hall⟩
        exact ⟨(Atoi_port_iff _ port (by omega) (by omega)).mp hp, by omega, by omega⟩

/-- C22: for a port specification that is none of the named sets, `initPorts` aborts the run
if and only if some comma-separated item, with the surrounding white space trimmed, is not a
decimal integer of the range 1..65535; when it does not abort, `Ports` is the list of the
values of the items, in the order of the items. -/
theorem initPorts_custom_specification (lists : PortLists) (spec : String)
    (hnamed : spec ∉ ["small", "", "medium", "default", "large", "xlarge", "huge"]) :
    (Session.initPorts lists spec = none ↔
      ∃ item ∈ splitOn ',' spec.data,
        ¬ ∃ n : Int, decimalInteger (TrimSpace item) n ∧ 1 ≤ n ∧ n ≤ 65535) ∧
    (∀ ports, Session.initPorts lists spec = some ports →
      List.Forall₂ (fun item port => decimalInteger (TrimSpace item) port ∧
        1 ≤ port ∧ port ≤ 65535) (splitOn ',' spec.data) ports) := by
  simp only [List.mem_cons, List.mem_singleton, List.not_mem_nil, or_false, not_or] at hnamed
  obtain ⟨n1, n2, n3, n4, n5, n6, n7⟩ := hnamed
  have hinit : Session.initPorts lists spec = initPortsLoop (splitOn ',' spec.data) [] := by
    simp [Session.initPorts, n1, n2, n3, n4, n5, n6, n7]
  rw [hinit]
  refine ⟨initPortsLoop_none_iff _ [], ?_⟩
  intro ports h
  obtain ⟨values, hv, hall⟩ := initPortsLoop_some _ _ _ h
  simp only [List.nil_append] at hv
  exact hv ▸ hall

/-- Witness of `initPorts_custom_specification`: the specification `80, 443,8080`. -/
theorem initPorts_custom_specification_witness :
    "80, 443,8080" ∉ ["small", "", "medium", "default", "large", "xlarge", "huge"] ∧
    Session.initPorts examplePortLists "80, 443,8080" = some [80, 443, 8080] ∧
    List.Forall₂ (fun item port => decimalInteger (TrimSpace item) port ∧
      1 ≤ port ∧ port ≤ 65535) (splitOn ',' "80, 443,8080".data) [80, 443, 8080] :=
  ⟨by decide, by decide,
    (initPorts_custom_specification examplePortLists "80, 443,8080" (by decide)).2
      [80, 443, 8080] (by decide)⟩

/-! ### HTTP requester: the claims -/

/-- C23: `OnURL` increments `RequestSuccessful` alone of the two request counters when the
request succeeds and `RequestFailed` alone when it fails; when it fails, `RequestFailed` is
incremented once and no other counter changes, the store is left as it was and no event is
published. -/
theorem request_outcome_counters (w : World) (get : String → Option Response)
    (NewPage : String → Option Page) (options : Options) (stats : Stats) (s : Session)
    (url : String) :
    (URLRequester.OnURL w get NewPage options stats s url).1.RequestFailed =
      (if (get url).isSome = true then stats.RequestFailed
       else (stats.RequestFailed + 1) % 2 ^ 32) ∧
    (URLRequester.OnURL w get NewPage options stats s url).1.RequestSuccessful =
      (if (get url).isSome = true then (stats.RequestSuccessful + 1) % 2 ^ 32
       else stats.RequestSuccessful) ∧
    (get url = none →
      (URLRequester.OnURL w get NewPage options stats s url).1 =
        { stats with RequestFailed := (stats.RequestFailed + 1) % 2 ^ 32 } ∧
      (URLRequester.OnURL w get NewPage options stats s url).2.1 = s ∧
      published (URLRequester.OnURL w get NewPage options stats s url).2.2 = []) := by
  cases hget : get url with
  | none =>
    simp [URLRequester.OnURL, hget, Stats.IncrementRequestFailed, addUint32, published]
  | some resp =>
    have hbucket : ∀ st : Stats,
        (URLRequester.incrementResponseCode st resp.StatusCode).RequestFailed =
          st.RequestFailed ∧
        (URLRequester.incrementResponseCode st resp.StatusCode).RequestSuccessful =
          st.RequestSuccessful := by
      intro st
      unfold URLRequester.incrementResponseCode
      split
      · exact ⟨rfl, rfl⟩
      · split
        · exact ⟨rfl, rfl⟩
        · split
          · exact ⟨rfl, rfl⟩
          · exact ⟨rfl, rfl⟩
    have hstats : (URLRequester.OnURL w get NewPage options stats s url).1 =
        URLRequester.incrementResponseCode stats.IncrementRequestSuccessful
          resp.StatusCode := by
      simp only [URLRequester.OnURL, hget]
      split <;> rfl
    rw [hstats]
    refine ⟨?_, ?_, ?_⟩
    · rw [(hbucket _).1]
      simp [Stats.IncrementRequestSuccessful]
    · rw [(hbucket _).2]
      simp [Stats.IncrementRequestSuccessful, addUint32]
    · intro h
      cases h

/-- C24 (counterexample): a response with the status code 999 increments `ResponseCode5xx`,
and a response with the status code 101 increments `ResponseCode2xx`, although neither code is
of the counter's class. -/
theorem status_bucket_outside_its_class :
    (URLRequester.OnURL offlineWorld (exampleGet 999 "999 Request denied") exampleNewPage
        defaultOptions zeroStats ⟨[]⟩ "https://www.example.com/").1 =
      { zeroStats with RequestSuccessful := 1, ResponseCode5xx := 1 } ∧
    (URLRequester.OnURL offlineWorld (exampleGet 101 "101 Switching Protocols") exampleNewPage
        defaultOptions zeroStats ⟨[]⟩ "https://www.example.com/").1 =
      { zeroStats with RequestSuccessful := 1, ResponseCode2xx := 1 } := by
  decide

/-- C24 (amended): for a successful response, `OnURL` increments `RequestSuccessful` and
exactly one of the four status-bucket counters: `ResponseCode5xx` for a status code of 500 or
more, `ResponseCode4xx` for 400..499, `ResponseCode3xx` for 300..399 and `ResponseCode2xx` for
every status code below 300. -/
theorem status_bucket_by_threshold (w : World) (get : String → Option Response)
    (NewPage : String → Option Page) (options : Options) (stats : Stats) (s : Session)
    (url : String) (resp : Response) (hget : get url = some resp) :
    (URLRequester.OnURL w get NewPage options stats s url).1 =
      (if resp.StatusCode ≥ 500 then
        { stats with
          RequestSuccessful := (stats.RequestSuccessful + 1) % 2 ^ 32
          ResponseCode5xx := (stats.ResponseCode5xx + 1) % 2 ^ 32 }
       else if resp.StatusCode ≥ 400 then
        { stats with
          RequestSuccessful := (stats.RequestSuccessful + 1) % 2 ^ 32
          ResponseCode4xx := (stats.ResponseCode4xx + 1) % 2 ^ 32 }
       else if resp.StatusCode ≥ 300 then
        { stats with
          RequestSuccessful := (stats.RequestSuccessful + 1) % 2 ^ 32
          ResponseCode3xx := (stats.ResponseCode3xx + 1) % 2 ^ 32 }
       else
        { stats with
          RequestSuccessful := (stats.RequestSuccessful + 1) % 2 ^ 32
          ResponseCode2xx := (stats.ResponseCode2xx + 1) % 2 ^ 32 }) := by
  have hstats : (URLRequester.OnURL w get NewPage options stats s url).1 =
      URLRequester.incrementResponseCode stats.IncrementRequestSuccessful
        resp.StatusCode := by
    simp only [URLRequester.OnURL, hget]
    split <;> rfl
  rw [hstats]
  unfold URLRequester.incrementResponseCode
  split
  · rfl
  · split
    · rfl
    · split
      · rfl
      · rfl

/-- Witness of `status_bucket_by_threshold`: a response with the status code 404. -/
theorem status_bucket_by_threshold_witness :
    exampleGet 404 "404 Not Found" "https://www.example.com/missing" =
      some { StatusCode := 404, Status := "404 Not Found", Header := [], Body := some "" } ∧
    (URLRequester.OnURL offlineWorld (exampleGet 404 "404 Not Found") exampleNewPage
        defaultOptions zeroStats ⟨[]⟩ "https://www.example.com/missing").1 =
      { zeroStats with RequestSuccessful := 1, ResponseCode4xx := 1 } :=
  ⟨rfl,
    status_bucket_by_threshold offlineWorld (exampleGet 404 "404 Not Found") exampleNewPage
      defaultOptions zeroStats ⟨[]⟩ "https://www.example.com/missing"
      { StatusCode := 404, Status := "404 Not Found", Header := [], Body := some "" } rfl⟩

end Aquatone
